import Mathlib

/-!
# Singularity command layer: `pull` and `oci`

A shallow embedding of `cmd/internal/cli/pull.go` (`pullRun`) and of
`src/cmd/singularity/cli/oci.go` (`execOciStarter` and the three `oci`
sub-commands), together with the properties of the specification that concern
them.

Both functions are sequences of calls into the operating system and into
packages that live outside the two files.  The embedding threads an explicit
file system through the calls, records every call in a trace, and takes the
functions of other packages as fields of a record of collaborators, so that
every theorem holds for whatever those functions compute.
-/

namespace Singularity

/-! ## Files -/

/-- File content: the sequence of bytes, each byte a natural number. -/
abbrev Bytes := List Nat

/-- Cut a path at its separators: the segments between the slashes. -/
def pathSegments : List Char → List (List Char)
  | [] => [[]]
  | c :: cs =>
    match pathSegments cs with
    | [] => [[c]]
    | seg :: segs => if c = '/' then [] :: seg :: segs else (c :: seg) :: segs

/-- One step of the lexical walk along a path: an empty segment (doubled or
trailing slash) and `.` stay in place, `..` goes up, a name goes down. -/
def pushSegment (stack : List (List Char)) (seg : List Char) : List (List Char) :=
  if seg = [] ∨ seg = ['.'] then stack
  else if seg = ['.', '.'] then stack.dropLast
  else stack ++ [seg]

/-- The absolute, lexically clean form of path `p` for a process whose working
directory is `cwd`. -/
def cleanPath (cwd p : String) : String :=
  let full := if p.toList.head? = some '/' then p.toList else cwd.toList ++ '/' :: p.toList
  String.mk (((pathSegments full).foldl pushSegment []).foldr
    (fun seg acc => '/' :: seg ++ acc) [])

/-- The part of the file system the commands touch.

* `files` holds the content of the files, each under one of its names; the
  first entry that names a file holds its current content.
* `cwd` is the working directory of the process, against which relative paths
  are taken.
* `links` sends a clean absolute path to the clean absolute path of the file
  it names, for every path that reaches its file through a symbolic link, a
  hard link or a mount; a path not listed names the file at its clean form.
* `denied` lists the files `os.OpenFile` / `os.Open` refuses to open
  (permissions, a missing directory, the empty path), by a name of the file,
  each with the error text of the refused open.
* `unreadable` lists the files that open but cannot be read (a directory, a
  failing device), by a name of the file, each with the error text of the
  failed read or copy. -/
structure FileSystem where
  files : List (String × Bytes)
  denied : List (String × String)
  unreadable : List (String × String)
  cwd : String
  links : List (String × String)
  deriving DecidableEq, Repr

namespace FileSystem

/-- The file a path names: two paths name the same file exactly when they
resolve to the same string. -/
def resolve (fs : FileSystem) (p : String) : String :=
  (fs.links.lookup (cleanPath fs.cwd p)).getD (cleanPath fs.cwd p)

/-- Search a table keyed by names of files for the file that `p` names. -/
def find {α : Type} (fs : FileSystem) (table : List (String × α)) (p : String) : Option α :=
  (table.find? fun e => fs.resolve e.1 == fs.resolve p).map fun e => e.2

/-- Content of the file that `p` names, if there is one. -/
def read (fs : FileSystem) (p : String) : Option Bytes :=
  fs.find fs.files p

/-- Replace the content of the file that `p` names (creating it when
absent). -/
def write (fs : FileSystem) (p : String) (b : Bytes) : FileSystem :=
  { fs with files := (p, b) :: fs.files }

/-- Model of `os.Stat(p)`: the error is nil exactly when the file is there. -/
def stat (fs : FileSystem) (p : String) : Except String Unit :=
  match fs.read p with
  | some _ => .ok ()
  | none => .error ("stat " ++ p ++ ": no such file or directory")

/-- Model of `os.OpenFile(p, os.O_CREATE|os.O_TRUNC|os.O_WRONLY, 0777)`: on
success the file that `p` names exists and is empty. -/
def openTrunc (fs : FileSystem) (p : String) : Except String FileSystem :=
  match fs.find fs.denied p with
  | some err => .error err
  | none => .ok (fs.write p [])

/-- Model of `os.OpenFile(p, os.O_RDONLY, 0444)` and of `os.Open(p)`: succeeds
on an existing file that is not denied. -/
def openRead (fs : FileSystem) (p : String) : Except String Unit :=
  match fs.find fs.denied p with
  | some err => .error err
  | none =>
    match fs.read p with
    | some _ => .ok ()
    | none => .error ("open " ++ p ++ ": no such file or directory")

/-- Model of `ioutil.ReadAll` on a file opened from `p`. -/
def readAll (fs : FileSystem) (p : String) : Except String Bytes :=
  match fs.find fs.unreadable p with
  | some err => .error err
  | none =>
    match fs.read p with
    | some b => .ok b
    | none => .ok []

/-- Model of `io.Copy(dst, src)` for files opened from `dst` and `src`.  The
source is read as it is at the time of the copy.  `fault = some n` is a write
that fails after `n` bytes (disk full, quota); a source that cannot be read
fails the copy with the error text the file system gives for it and writes
nothing. -/
def copy (fs : FileSystem) (fault : Option Nat) (dst src : String) :
    Except String Unit × FileSystem :=
  match fs.readAll src with
  | .error e => (.error e, fs)
  | .ok b =>
    match fault with
    | none => (.ok (), fs.write dst b)
    | some n => (.error ("write " ++ dst ++ ": no space left on device"),
        fs.write dst (b.take n))

end FileSystem

/-! ## `pull` -/

namespace Pull

/-- LibraryProtocol holds the sylabs cloud library base URI. -/
def LibraryProtocol : String := "library"
/-- ShubProtocol holds singularity hub base URI. -/
def ShubProtocol : String := "shub"
/-- HTTPProtocol holds the remote http base URI. -/
def HTTPProtocol : String := "http"
/-- HTTPSProtocol holds the remote https base URI. -/
def HTTPSProtocol : String := "https"

/-- The package-level variables `pullRun` reads, as bound by the flags of
`PullCmd` (and `authToken`, set by the `sylabsToken` pre-run). -/
structure Flags where
  PullLibraryURI : String
  PullImageName : String
  force : Bool
  tmpDir : String
  noHTTPS : Bool
  authToken : String
  deriving DecidableEq, Repr

/-- Docker credentials as returned by `makeDockerCredentials`. -/
structure DockerAuthConfig where
  Username : String
  Password : String
  deriving DecidableEq, Repr

/-- The literal `types.Options{TmpDir, Force, NoHTTPS, DockerAuthConfig}` built
by `pullRun`. -/
structure Options where
  TmpDir : String
  Force : Bool
  NoHTTPS : Bool
  DockerAuthConfig : Option DockerAuthConfig
  deriving DecidableEq, Repr

/-- Functions of other packages called by `pullRun`, and the fault of the one
`io.Copy` it performs. -/
structure Deps where
  /-- Function `uri.Split`: raw reference to (transport, ref). -/
  Split : String → String × String
  /-- Function `uri.GetName`: raw reference to image name. -/
  GetName : String → String
  /-- Call `client.GetImage(libraryURI, authToken, ref)`: the hash of the image. -/
  GetImage : String → String → String → Except String String
  /-- Call `cache.LibraryImage(hash, name)`: path of the cache entry, a function
  of hash and name alone. -/
  LibraryImage : String → String → String
  /-- Call `cache.LibraryImageExists(hash, name)`. -/
  LibraryImageExists : FileSystem → String → String → Except String Bool
  /-- Call `client.DownloadImage(path, ref, libraryURI, force, authToken)`: the
  file system it leaves and the error it returns. -/
  DownloadImage : FileSystem → String → String → String → Bool → String →
    FileSystem × Option String
  /-- Call `makeDockerCredentials(cmd)`. -/
  makeDockerCredentials : Except String (Option DockerAuthConfig)
  /-- Fault of `io.Copy`: `some n` fails after `n` bytes. -/
  copyFault : Option Nat

/-- Calls made by `pullRun`, in the order of execution. -/
inductive Event where
  | stat (name : String)
  | getImage (libraryURI authToken ref : String)
  | libraryImageExists (hash name : String)
  | downloadImage (path ref libraryURI : String) (force : Bool) (authToken : String)
  | openDst (name : String)
  | openSrc (path : String)
  | copy (dst src : String)
  | makeDockerCredentials
  | pullShubImage (name ref : String) (force noHTTPS : Bool)
  | pullNetImage (name ref : String) (force : Bool)
  | pullOciImage (name ref : String) (opts : Options)
  deriving DecidableEq, Repr

/-- The `sylog.Fatalf` call sites of `pullRun`. -/
inductive Fatal where
  /-- Message `bad uri %s` -/
  | badUri (arg : String)
  /-- Message `image file already exists - will not overwrite` -/
  | imageExists
  /-- Message `While getting image info: %v` -/
  | gettingImageInfo (err : String)
  /-- Message `unable to check if %v exists: %v` -/
  | cacheCheck (path err : String)
  /-- Message `%v` after opening the destination -/
  | openDst (err : String)
  /-- Message `%v` after opening the cached image -/
  | openSrc (err : String)
  /-- Message `%v` after `io.Copy` -/
  | copy (err : String)
  /-- Message `While creating Docker credentials: %v` -/
  | dockerCredentials (err : String)
  deriving DecidableEq, Repr

/-- How a run of `pullRun` ends. -/
inductive Outcome where
  /-- The function returned. -/
  | returned
  /-- Termination by `sylog.Fatalf`. -/
  | fatal (f : Fatal)
  /-- Index out of range on `args`. -/
  | panicked
  deriving DecidableEq, Repr

/-- A run of `pullRun`: how it ended, the calls it made, and the file system
as left by its own operations and by `DownloadImage`. -/
structure Result where
  outcome : Outcome
  trace : List Event
  fs : FileSystem
  deriving DecidableEq, Repr

/-- The name resolution of `pullRun` (the `var name string` block). -/
def pullName (d : Deps) (fl : Flags) (args : List String) (raw : String) : String :=
  if fl.PullImageName = "" then
    let name := args.headD ""
    if args.length = 1 then d.GetName raw else name
  else
    fl.PullImageName

/-- The end of the `case LibraryProtocol, ""` branch of `pullRun`, from the
opening of the destination on: the destination is created or truncated, the
cached image is opened, and its bytes are copied.  `fs1` and `t3` are the file
system and the trace the earlier statements left. -/
def copyFromCache (d : Deps) (fs1 : FileSystem) (t3 : List Event)
    (name imagePath : String) : Result :=
  let t4 := t3 ++ [.openDst name]
  match fs1.openTrunc name with
  | .error err => ⟨.fatal (.openDst err), t4, fs1⟩
  | .ok fs2 =>
    let t5 := t4 ++ [.openSrc imagePath]
    match fs2.openRead imagePath with
    | .error err => ⟨.fatal (.openSrc err), t5, fs2⟩
    | .ok _ =>
      let t6 := t5 ++ [.copy name imagePath]
      match fs2.copy d.copyFault name imagePath with
      | (.error err, fs3) => ⟨.fatal (.copy err), t6, fs3⟩
      | (.ok _, fs3) => ⟨.returned, t6, fs3⟩

/-- The `case LibraryProtocol, ""` branch of `pullRun`, after the check of the
destination: metadata query, cache check, download on a miss (the value
`DownloadImage` returns is not looked at), then the copy. -/
def fetchLibrary (d : Deps) (fl : Flags) (fs : FileSystem) (t0 : List Event)
    (raw name : String) : Result :=
  let t1 := t0 ++ [.getImage fl.PullLibraryURI fl.authToken raw]
  match d.GetImage fl.PullLibraryURI fl.authToken raw with
  | .error err => ⟨.fatal (.gettingImageInfo err), t1, fs⟩
  | .ok hash =>
    let imageName := d.GetName raw
    let imagePath := d.LibraryImage hash imageName
    let t2 := t1 ++ [.libraryImageExists hash imageName]
    match d.LibraryImageExists fs hash imageName with
    | .error err => ⟨.fatal (.cacheCheck imagePath err), t2, fs⟩
    | .ok found =>
      if found then copyFromCache d fs t2 name imagePath
      else
        copyFromCache d
          (d.DownloadImage fs imagePath raw fl.PullLibraryURI false fl.authToken).1
          (t2 ++ [.downloadImage imagePath raw fl.PullLibraryURI false fl.authToken])
          name imagePath

/-- The `case LibraryProtocol, ""` branch of `pullRun`. -/
def pullLibrary (d : Deps) (fl : Flags) (fs : FileSystem) (raw name : String) : Result :=
  if fl.force then fetchLibrary d fl fs [] raw name
  else
    match fs.stat name with
    | .ok _ => ⟨.fatal .imageExists, [.stat name], fs⟩
    | .error _ => fetchLibrary d fl fs [.stat name] raw name

/-- Model of `pullRun(cmd, args)`: the reference is the last argument; an empty
locator is fatal; the name is resolved; the transport selects the branch.  The
three delegated strategies are calls into package `libexec`: the call is
recorded with its arguments and `pullRun` returns after it. -/
def pullRun (d : Deps) (fl : Flags) (fs : FileSystem) (args : List String) : Result :=
  match args.getLast? with
  | none => ⟨.panicked, [], fs⟩
  | some raw =>
    let transport := (d.Split raw).1
    let ref := (d.Split raw).2
    if ref = "" then ⟨.fatal (.badUri raw), [], fs⟩
    else
      let name := pullName d fl args raw
      if transport = LibraryProtocol ∨ transport = "" then
        pullLibrary d fl fs raw name
      else if transport = ShubProtocol then
        ⟨.returned, [.pullShubImage name raw fl.force fl.noHTTPS], fs⟩
      else if transport = HTTPProtocol ∨ transport = HTTPSProtocol then
        ⟨.returned, [.pullNetImage name raw fl.force], fs⟩
      else
        match d.makeDockerCredentials with
        | .error err => ⟨.fatal (.dockerCredentials err), [.makeDockerCredentials], fs⟩
        | .ok authConf =>
          ⟨.returned, [.makeDockerCredentials,
            .pullOciImage name raw ⟨fl.tmpDir, fl.force, fl.noHTTPS, authConf⟩], fs⟩

/-- The destination name in the words of the specification: the explicit
override when there is one, else the first positional argument when two were
given, else the name derived from the reference. -/
def specDestinationName (d : Deps) (fl : Flags) (args : List String) : String :=
  if fl.PullImageName ≠ "" then fl.PullImageName
  else match args with
    | [first, _] => first
    | _ => d.GetName (args.getLastD "")

/-- The destination a call is made on, for the calls that have one. -/
def Event.destination? : Event → Option String
  | .stat name => some name
  | .openDst name => some name
  | .copy dst _ => some dst
  | .pullShubImage name _ _ _ => some name
  | .pullNetImage name _ _ => some name
  | .pullOciImage name _ _ => some name
  | _ => none

/-- The calls that hand the pull to one of the three delegated strategies. -/
def Event.isDelegation : Event → Bool
  | .pullShubImage _ _ _ _ => true
  | .pullNetImage _ _ _ => true
  | .pullOciImage _ _ _ => true
  | _ => false

/-- Scan for the separator between scheme and locator. -/
def splitScheme : List Char → Option (List Char × List Char)
  | [] => none
  | ':' :: '/' :: '/' :: rest => some ([], rest)
  | c :: cs => (splitScheme cs).map fun p => (c :: p.1, p.2)

/-- Modelled from the spec: `uri.Split` is not among the sources.  A reference
`scheme://locator` gives transport `scheme` and locator `locator`; a reference
without a scheme gives the empty transport and the whole input. -/
def uriSplit (raw : String) : String × String :=
  match splitScheme raw.toList with
  | some (t, r) => (String.mk t, String.mk r)
  | none => ("", raw)

/-- Characters after the last slash. -/
def lastSegment : List Char → List Char
  | [] => []
  | c :: cs => if '/' ∈ cs then lastSegment cs else if c = '/' then cs else c :: cs

/-- Modelled from the spec: `uri.GetName` is not among the sources.  The spec
asks for a name derived deterministically from the reference; this instance
takes the last path segment. -/
def uriGetName (raw : String) : String :=
  String.mk (lastSegment raw.toList)

/-- Modelled from the spec: `cache.LibraryImage` is not among the sources; the
path is a pure function of hash and name. -/
def cacheLibraryImage (hash name : String) : String :=
  "/cache/library/" ++ hash ++ "/" ++ name

/-- Modelled from the spec: `cache.LibraryImageExists` is not among the
sources; presence of the file at the cache path. -/
def cacheLibraryImageExists (fs : FileSystem) (hash name : String) : Except String Bool :=
  .ok (fs.read (cacheLibraryImage hash name)).isSome

/-- A library that knows every image under one hash and serves three bytes. -/
def sampleDeps : Deps where
  Split := uriSplit
  GetName := uriGetName
  GetImage := fun _ _ _ => .ok "h1"
  LibraryImage := cacheLibraryImage
  LibraryImageExists := cacheLibraryImageExists
  DownloadImage := fun fs path _ _ _ _ => (fs.write path [1, 2, 3], none)
  makeDockerCredentials := .ok none
  copyFault := none

/-- The same library when the network is down: the download writes nothing and
returns an error. -/
def offlineDeps : Deps :=
  { sampleDeps with DownloadImage := fun fs _ _ _ _ _ => (fs, some "connection refused") }

/-- The same library when the disk fills up after one byte of the copy. -/
def diskFullDeps : Deps :=
  { sampleDeps with copyFault := some 1 }

/-- The same collaborators when the Docker credentials cannot be built. -/
def noCredentialsDeps : Deps :=
  { sampleDeps with makeDockerCredentials := .error "unable to read a username from stdin" }

/-- Flags left at their defaults. -/
def defaultFlags : Flags where
  PullLibraryURI := "https://library.sylabs.io"
  PullImageName := ""
  force := false
  tmpDir := ""
  noHTTPS := false
  authToken := ""

/-- An empty file system. -/
def emptyFS : FileSystem := ⟨[], [], [], "/work", []⟩

/-- A file system whose only file is the cache entry of image `alpine` under
hash `h1`, holding three bytes. -/
def cachedFS : FileSystem := ⟨[("/cache/library/h1/alpine", [7, 8, 9])], [], [], "/work", []⟩

/-- Flags with the name override set, all else at the defaults. -/
def namedFlags : Flags := { defaultFlags with PullImageName := "named.sif" }

/-- Flags of a forced pull, all else at the defaults. -/
def forceFlags : Flags := { defaultFlags with force := true }

end Pull

/-! ## `oci` -/

namespace Oci

/-- The process environment, as key and value pairs in the order of
`os.Environ`. -/
abbrev Environ := List (String × String)

/-- Model of `os.Clearenv()`: no variable is left. -/
def clearenv (_ : Environ) : Environ := []

/-- Model of `os.Setenv(k, v)`: replaces the value of a key that is set,
appends the key otherwise. -/
def setenv (env : Environ) (k v : String) : Environ :=
  if env.any (fun p => p.1 == k) then env.map (fun p => if p.1 = k then (k, v) else p)
  else env ++ [(k, v)]

/-- Model of `os.Environ()`: the strings `key=value`. -/
def environ (env : Environ) : List String :=
  env.map fun p => p.1 ++ "=" ++ p.2

/-- Model of `filepath.Join(dir, file)` for a directory written without a
trailing separator or dot segments, as `/tmp` is. -/
def filepathJoin (dir file : String) : String :=
  dir ++ "/" ++ file

/-- The engine configuration of package `oci`, as far as `execOciStarter` uses
it: the bundle path behind `SetBundlePath` / `GetBundlePath` and the runtime
specification `OciConfig.Spec`. -/
structure EngineConfig (σ : Type) where
  BundlePath : String
  Spec : σ
  deriving DecidableEq, Repr

/-- The envelope `config.Common`. -/
structure Common (σ : Type) where
  ContainerID : String
  EngineName : String
  EngineConfig : EngineConfig σ
  deriving DecidableEq, Repr

/-- Functions and constants of other packages used by `execOciStarter`; `σ` is
the type of the OCI runtime specification. -/
structure Deps (σ : Type) where
  /-- Build constant `buildcfg.LIBEXECDIR`. -/
  LIBEXECDIR : String
  /-- Specification held by a fresh `oci.NewConfig()`. -/
  NewSpec : σ
  /-- Call `json.Unmarshal(data, generator.Config)`: decodes into the given
  specification. -/
  Unmarshal : Bytes → σ → Except String σ
  /-- Call `json.Marshal(commonConfig)`. -/
  Marshal : Common σ → Except String Bytes
  /-- Call `exec.PipeCommand(command, args, env, data)`: whether a command was
  built. -/
  PipeCommand : String → List String → List String → Bytes → Except String Unit
  /-- Call `cmd.Run()` on the command built from these arguments: nil, or the
  error of a start that failed or of an exit that was not zero. -/
  Run : String → List String → List String → Bytes → Option String

/-- Calls made by `execOciStarter`, in the order of execution. -/
inductive Event (σ : Type) where
  | clearenv
  | openConfig (path : String)
  | readAll (path : String)
  | close (path : String)
  | unmarshal (data : Bytes)
  | setenv (key value : String)
  | marshal (c : Common σ)
  | pipeCommand (command : String) (args env : List String) (data : Bytes)
  | run (command : String) (args env : List String) (data : Bytes)
  deriving DecidableEq, Repr

/-- How a call of `execOciStarter` ends. -/
inductive Return where
  /-- The function returned a nil error. -/
  | nil
  /-- The function returned this error. -/
  | error (msg : String)
  /-- Termination by `sylog.Fatalf`. -/
  | fatal (msg : String)
  /-- Dereference of the nil command after a failed `exec.PipeCommand`. -/
  | panicked
  deriving DecidableEq, Repr

/-- A call of `execOciStarter`: how it ended, the calls it made, and the
process environment it left. -/
structure Result (σ : Type) where
  ret : Return
  trace : List (Event σ)
  env : Environ
  deriving DecidableEq, Repr

/-- Model of `execOciStarter()`, run in file system `fs` and process
environment `env0`. -/
def execOciStarter {σ : Type} (d : Deps σ) (fs : FileSystem) (env0 : Environ) : Result σ :=
  let starter := d.LIBEXECDIR ++ "/singularity/bin/starter"
  let env1 := clearenv env0
  -- engineConfig := oci.NewConfig(); engineConfig.SetBundlePath("/tmp")
  let engineConfig : EngineConfig σ := { BundlePath := "/tmp", Spec := d.NewSpec }
  let bundlePath := engineConfig.BundlePath
  let configJSON := filepathJoin bundlePath "config.json"
  let t1 : List (Event σ) := [.clearenv, .openConfig configJSON]
  match fs.openRead configJSON with
  | .error err => ⟨.error ("failed to open " ++ configJSON ++ ": " ++ err), t1, env1⟩
  | .ok _ =>
    let t2 := t1 ++ [.readAll configJSON]
    match fs.readAll configJSON with
    | .error err => ⟨.error ("failed to read " ++ configJSON ++ ": " ++ err), t2, env1⟩
    | .ok data =>
      let t3 := t2 ++ [.close configJSON, .unmarshal data]
      match d.Unmarshal data engineConfig.Spec with
      | .error err => ⟨.error ("failed to parse " ++ configJSON ++ ": " ++ err), t3, env1⟩
      | .ok spec =>
        let engineConfig := { engineConfig with Spec := spec }
        let env2 := setenv env1 "SRUNTIME" "oci"
        let env3 := setenv env2 "SINGULARITY_MESSAGELEVEL" "0"
        let commonConfig : Common σ :=
          { ContainerID := "test", EngineName := "oci", EngineConfig := engineConfig }
        let t4 := t3 ++ [.setenv "SRUNTIME" "oci", .setenv "SINGULARITY_MESSAGELEVEL" "0",
          .marshal commonConfig]
        match d.Marshal commonConfig with
        | .error err => ⟨.fatal err, t4, env3⟩
        | .ok configData =>
          let t5 := t4 ++ [.pipeCommand starter ["OCI"] (environ env3) configData]
          match d.PipeCommand starter ["OCI"] (environ env3) configData with
          | .error _ => ⟨.panicked, t5, env3⟩
          | .ok _ =>
            let t6 := t5 ++ [.run starter ["OCI"] (environ env3) configData]
            match d.Run starter ["OCI"] (environ env3) configData with
            | some err => ⟨.error err, t6, env3⟩
            | none => ⟨.nil, t6, env3⟩

/-- How an `oci` sub-command ends. -/
inductive CmdOutcome where
  /-- The positional arguments were refused by the `Args` validator, before
  `Run`. -/
  | rejected
  /-- The `Run` function returned: nothing was printed and the command
  succeeded. -/
  | returned
  /-- Termination by `sylog.Fatalf`: the message is printed and the status is
  not zero. -/
  | fatal (msg : String)
  /-- Go panic: a stack trace is printed and the status is not zero. -/
  | panicked
  deriving DecidableEq, Repr

/-- Whether the outcome is a failure of the command. -/
def CmdOutcome.isFailure : CmdOutcome → Bool
  | .returned => false
  | _ => true

/-- A run of an `oci` sub-command. -/
structure CmdResult (σ : Type) where
  outcome : CmdOutcome
  trace : List (Event σ)
  deriving DecidableEq, Repr

/-- The body shared by the three `Run` functions, `execOciStarter()` as a
statement: the returned error is dropped. -/
def runBody {σ : Type} (d : Deps σ) (fs : FileSystem) (env0 : Environ) : CmdResult σ :=
  let r := execOciStarter d fs env0
  match r.ret with
  | .nil => ⟨.returned, r.trace⟩
  | .error _ => ⟨.returned, r.trace⟩
  | .fatal msg => ⟨.fatal msg, r.trace⟩
  | .panicked => ⟨.panicked, r.trace⟩

set_option linter.unusedVariables false in
/-- Model of `OciCreateCmd`: `cobra.ExactArgs(0)`, then `Run`.  `ociName` is
the package variable bound to `--container`. -/
def OciCreateCmd {σ : Type} (d : Deps σ) (ociName : String) (fs : FileSystem)
    (env0 : Environ) (args : List String) : CmdResult σ :=
  if args.length ≠ 0 then ⟨.rejected, []⟩ else runBody d fs env0

set_option linter.unusedVariables false in
/-- Model of `OciRunCmd`: `cobra.ExactArgs(0)`, then `Run`. -/
def OciRunCmd {σ : Type} (d : Deps σ) (ociName : String) (fs : FileSystem)
    (env0 : Environ) (args : List String) : CmdResult σ :=
  if args.length ≠ 0 then ⟨.rejected, []⟩ else runBody d fs env0

set_option linter.unusedVariables false in
/-- Model of `OciStartCmd`: `cobra.ExactArgs(1)`, then `Run`. -/
def OciStartCmd {σ : Type} (d : Deps σ) (ociName : String) (fs : FileSystem)
    (env0 : Environ) (args : List String) : CmdResult σ :=
  if args.length ≠ 1 then ⟨.rejected, []⟩ else runBody d fs env0

/-- The calls that serialize the envelope, build the starter command, or run
it. -/
def Event.isHandoff {σ : Type} : Event σ → Bool
  | .marshal _ => true
  | .pipeCommand _ _ _ _ => true
  | .run _ _ _ _ => true
  | _ => false

/-! ### Concrete collaborators -/

/-- A stand-in for `json.Unmarshal`: accepts a text that opens and closes with
a brace and keeps its bytes as the specification. -/
def sampleUnmarshal (data : Bytes) (_ : Bytes) : Except String Bytes :=
  if data.head? = some 123 ∧ data.getLast? = some 125 then .ok data
  else .error "unexpected end of JSON input"

/-- A stand-in for `json.Marshal`: identifier, engine name, bundle path and
specification, each closed by a zero byte. -/
def sampleMarshal (c : Common Bytes) : Except String Bytes :=
  .ok (c.ContainerID.toList.map Char.toNat ++ [0] ++ c.EngineName.toList.map Char.toNat ++ [0]
    ++ c.EngineConfig.BundlePath.toList.map Char.toNat ++ [0] ++ c.EngineConfig.Spec ++ [0])

/-- Collaborators with a starter that runs and exits with status zero. -/
def starterDeps : Deps Bytes where
  LIBEXECDIR := "/usr/local/libexec"
  NewSpec := []
  Unmarshal := sampleUnmarshal
  Marshal := sampleMarshal
  PipeCommand := fun _ _ _ _ => .ok ()
  Run := fun _ _ _ _ => none

/-- The same collaborators with a starter that exits with status one. -/
def failingStarterDeps : Deps Bytes :=
  { starterDeps with Run := fun _ _ _ _ => some "exit status 1" }

/-- A file system whose `/tmp/config.json` holds the text `{}`. -/
def bundleFS : FileSystem := ⟨[("/tmp/config.json", [123, 125])], [], [], "/work", []⟩

/-- A file system whose `/tmp/config.json` is cut short: the text `{"oci`. -/
def truncatedFS : FileSystem := ⟨[("/tmp/config.json", [123, 34, 111, 99, 105])], [], [], "/work", []⟩

end Oci

end Singularity

/-! ## Properties of `pull` -/

namespace Singularity.Pull

theorem pullRun_of_last (d : Deps) (fl : Flags) (fs : FileSystem) (args : List String)
    (raw : String) (hlast : args.getLast? = some raw) (href : (d.Split raw).2 ≠ "") :
    pullRun d fl fs args =
      (let transport := (d.Split raw).1
       let name := pullName d fl args raw
       if transport = LibraryProtocol ∨ transport = "" then
         pullLibrary d fl fs raw name
       else if transport = ShubProtocol then
         ⟨.returned, [.pullShubImage name raw fl.force fl.noHTTPS], fs⟩
       else if transport = HTTPProtocol ∨ transport = HTTPSProtocol then
         ⟨.returned, [.pullNetImage name raw fl.force], fs⟩
       else
         match d.makeDockerCredentials with
         | .error err => ⟨.fatal (.dockerCredentials err), [.makeDockerCredentials], fs⟩
         | .ok authConf =>
           ⟨.returned, [.makeDockerCredentials,
             .pullOciImage name raw ⟨fl.tmpDir, fl.force, fl.noHTTPS, authConf⟩], fs⟩) := by
  simp only [pullRun, hlast, href, if_false]

theorem pullRun_library (d : Deps) (fl : Flags) (fs : FileSystem) (args : List String)
    (raw : String) (hlast : args.getLast? = some raw) (href : (d.Split raw).2 ≠ "")
    (hlib : (d.Split raw).1 = LibraryProtocol ∨ (d.Split raw).1 = "") :
    pullRun d fl fs args = pullLibrary d fl fs raw (pullName d fl args raw) := by
  rw [pullRun_of_last d fl fs args raw hlast href]
  simp only [hlib, if_true]

theorem pullName_eq_spec (d : Deps) (fl : Flags) (args : List String) (raw : String)
    (hlen : args.length = 1 ∨ args.length = 2) (hlast : args.getLast? = some raw) :
    pullName d fl args raw = specDestinationName d fl args := by
  match args, hlen with
  | [a], _ =>
    simp at hlast
    subst hlast
    by_cases h : fl.PullImageName = "" <;> simp [pullName, specDestinationName, h]
  | [a, b], _ =>
    by_cases h : fl.PullImageName = "" <;> simp [pullName, specDestinationName, h]

theorem copyFromCache_trace (d : Deps) (fs1 : FileSystem) (t3 : List Event)
    (name imagePath : String) :
    ∃ rest, (copyFromCache d fs1 t3 name imagePath).trace = t3 ++ .openDst name :: rest ∧
      ∀ e ∈ rest, e = .openSrc imagePath ∨ e = .copy name imagePath := by
  cases h1 : fs1.openTrunc name with
  | error err => exact ⟨[], by simp [copyFromCache, h1]⟩
  | ok fs2 =>
    cases h2 : fs2.openRead imagePath with
    | error err => exact ⟨[.openSrc imagePath], by simp [copyFromCache, h1, h2]⟩
    | ok u =>
      rcases h3 : fs2.copy d.copyFault name imagePath with ⟨r, fs3⟩
      cases r with
      | error err =>
        exact ⟨[.openSrc imagePath, .copy name imagePath], by simp [copyFromCache, h1, h2, h3]⟩
      | ok u =>
        exact ⟨[.openSrc imagePath, .copy name imagePath], by simp [copyFromCache, h1, h2, h3]⟩

theorem copyFromCache_mem (d : Deps) (fs1 : FileSystem) (t3 : List Event)
    (name imagePath : String) (e : Event)
    (he : e ∈ (copyFromCache d fs1 t3 name imagePath).trace) :
    e ∈ t3 ∨ e = .openDst name ∨ e = .openSrc imagePath ∨ e = .copy name imagePath := by
  obtain ⟨rest, hrest, hall⟩ := copyFromCache_trace d fs1 t3 name imagePath
  rw [hrest] at he
  simp only [List.mem_append, List.mem_cons] at he
  rcases he with h | h | h
  · exact Or.inl h
  · exact Or.inr (Or.inl h)
  · exact Or.inr (Or.inr (hall e h))

theorem fetchLibrary_mem (d : Deps) (fl : Flags) (fs : FileSystem) (t0 : List Event)
    (raw name : String) (e : Event) (he : e ∈ (fetchLibrary d fl fs t0 raw name).trace) :
    e ∈ t0 ∨ e = .getImage fl.PullLibraryURI fl.authToken raw ∨
      (∃ hash, e = .libraryImageExists hash (d.GetName raw)) ∨
      (∃ hash, d.GetImage fl.PullLibraryURI fl.authToken raw = .ok hash ∧
        d.LibraryImageExists fs hash (d.GetName raw) = .ok false ∧
        e = .downloadImage (d.LibraryImage hash (d.GetName raw)) raw fl.PullLibraryURI false
          fl.authToken) ∨
      e = .openDst name ∨ (∃ path, e = .openSrc path) ∨ (∃ path, e = .copy name path) := by
  unfold fetchLibrary at he
  cases h1 : d.GetImage fl.PullLibraryURI fl.authToken raw with
  | error err =>
    simp only [h1, List.mem_append, List.mem_singleton] at he
    rcases he with h | h
    · exact Or.inl h
    · exact Or.inr (Or.inl h)
  | ok hash =>
    simp only [h1] at he
    cases h2 : d.LibraryImageExists fs hash (d.GetName raw) with
    | error err =>
      simp only [h2, List.mem_append, List.mem_singleton] at he
      rcases he with (h | h) | h
      · exact Or.inl h
      · exact Or.inr (Or.inl h)
      · exact Or.inr (Or.inr (Or.inl ⟨hash, h⟩))
    | ok found =>
      simp only [h2] at he
      cases found with
      | true =>
        simp only [if_true] at he
        rcases copyFromCache_mem _ _ _ _ _ _ he with h | h | h | h
        · simp only [List.mem_append, List.mem_singleton] at h
          rcases h with (h | h) | h
          · exact Or.inl h
          · exact Or.inr (Or.inl h)
          · exact Or.inr (Or.inr (Or.inl ⟨hash, h⟩))
        · exact Or.inr (Or.inr (Or.inr (Or.inr (Or.inl h))))
        · exact Or.inr (Or.inr (Or.inr (Or.inr (Or.inr (Or.inl ⟨_, h⟩)))))
        · exact Or.inr (Or.inr (Or.inr (Or.inr (Or.inr (Or.inr ⟨_, h⟩)))))
      | false =>
        simp only [Bool.false_eq_true, if_false] at he
        rcases copyFromCache_mem _ _ _ _ _ _ he with h | h | h | h
        · simp only [List.mem_append, List.mem_singleton] at h
          rcases h with ((h | h) | h) | h
          · exact Or.inl h
          · exact Or.inr (Or.inl h)
          · exact Or.inr (Or.inr (Or.inl ⟨hash, h⟩))
          · exact Or.inr (Or.inr (Or.inr (Or.inl ⟨hash, rfl, h2, h⟩)))
        · exact Or.inr (Or.inr (Or.inr (Or.inr (Or.inl h))))
        · exact Or.inr (Or.inr (Or.inr (Or.inr (Or.inr (Or.inl ⟨_, h⟩)))))
        · exact Or.inr (Or.inr (Or.inr (Or.inr (Or.inr (Or.inr ⟨_, h⟩)))))

theorem pullLibrary_mem (d : Deps) (fl : Flags) (fs : FileSystem) (raw name : String)
    (e : Event) (he : e ∈ (pullLibrary d fl fs raw name).trace) :
    e = .stat name ∨ e = .getImage fl.PullLibraryURI fl.authToken raw ∨
      (∃ hash, e = .libraryImageExists hash (d.GetName raw)) ∨
      (∃ hash, d.GetImage fl.PullLibraryURI fl.authToken raw = .ok hash ∧
        d.LibraryImageExists fs hash (d.GetName raw) = .ok false ∧
        e = .downloadImage (d.LibraryImage hash (d.GetName raw)) raw fl.PullLibraryURI false
          fl.authToken) ∨
      e = .openDst name ∨ (∃ path, e = .openSrc path) ∨ (∃ path, e = .copy name path) := by
  unfold pullLibrary at he
  cases hf : fl.force with
  | true =>
    simp only [hf, if_true] at he
    rcases fetchLibrary_mem _ _ _ _ _ _ _ he with h | h
    · simp at h
    · exact Or.inr h
  | false =>
    simp only [hf, Bool.false_eq_true, if_false] at he
    cases hs : fs.stat name with
    | ok u =>
      simp only [hs, List.mem_singleton] at he
      exact Or.inl he
    | error err =>
      simp only [hs] at he
      rcases fetchLibrary_mem _ _ _ _ _ _ _ he with h | h
      · simp only [List.mem_singleton] at h
        exact Or.inl h
      · exact Or.inr h

theorem pullLibrary_destination (d : Deps) (fl : Flags) (fs : FileSystem) (raw name : String) :
    ∀ e ∈ (pullLibrary d fl fs raw name).trace, ∀ n, e.destination? = some n → n = name := by
  intro e he n hn
  rcases pullLibrary_mem d fl fs raw name e he with
    h | h | ⟨_, h⟩ | ⟨_, _, _, h⟩ | h | ⟨_, h⟩ | ⟨_, h⟩ <;>
    subst h <;> simp [Event.destination?] at hn <;> exact hn.symm

theorem resolve_write (fs : FileSystem) (p q : String) (b : Bytes) :
    (fs.write p b).resolve q = fs.resolve q := rfl

theorem read_write_alias (fs : FileSystem) (p q : String) (b : Bytes)
    (h : fs.resolve q = fs.resolve p) : (fs.write p b).read q = some b := by
  simp [FileSystem.read, FileSystem.find, FileSystem.write, FileSystem.resolve, List.find?] at *
  simp [h]

theorem read_write_same (fs : FileSystem) (p : String) (b : Bytes) :
    (fs.write p b).read p = some b :=
  read_write_alias fs p p b rfl

theorem read_write_other (fs : FileSystem) (p q : String) (b : Bytes)
    (h : fs.resolve q ≠ fs.resolve p) : (fs.write p b).read q = fs.read q := by
  have hq : (fs.resolve p == fs.resolve q) = false := by
    simpa using fun h2 => h h2.symm
  have hr : ∀ x, (fs.write p b).resolve x = fs.resolve x := fun _ => rfl
  simp only [FileSystem.read, FileSystem.find, hr]
  simp [FileSystem.write, List.find?, hq]

theorem copyFromCache_outcome (d : Deps) (fs1 : FileSystem) (t3 : List Event)
    (name imagePath : String) :
    (copyFromCache d fs1 t3 name imagePath).outcome = .returned ∨
      (∃ err, (copyFromCache d fs1 t3 name imagePath).outcome = .fatal (.openDst err)) ∨
      (∃ err, (copyFromCache d fs1 t3 name imagePath).outcome = .fatal (.openSrc err)) ∨
      (∃ err, (copyFromCache d fs1 t3 name imagePath).outcome = .fatal (.copy err)) := by
  cases h1 : fs1.openTrunc name with
  | error err => exact Or.inr (Or.inl ⟨err, by simp [copyFromCache, h1]⟩)
  | ok fs2 =>
    cases h2 : fs2.openRead imagePath with
    | error err => exact Or.inr (Or.inr (Or.inl ⟨err, by simp [copyFromCache, h1, h2]⟩))
    | ok u =>
      rcases h3 : fs2.copy d.copyFault name imagePath with ⟨r, fs3⟩
      cases r with
      | error err =>
        exact Or.inr (Or.inr (Or.inr ⟨err, by simp [copyFromCache, h1, h2, h3]⟩))
      | ok u => exact Or.inl (by simp [copyFromCache, h1, h2, h3])

theorem copyFromCache_returned (d : Deps) (fs1 : FileSystem) (t3 : List Event)
    (name imagePath : String)
    (hret : (copyFromCache d fs1 t3 name imagePath).outcome = .returned) :
    ∃ b, (fs1.write name []).read imagePath = some b ∧
      (copyFromCache d fs1 t3 name imagePath).fs = (fs1.write name []).write name b := by
  cases h1 : fs1.openTrunc name with
  | error err => simp [copyFromCache, h1] at hret
  | ok fs2 =>
    have hfs2 : fs2 = fs1.write name [] := by
      unfold FileSystem.openTrunc at h1
      split at h1
      · simp at h1
      · simpa using h1.symm
    cases h2 : fs2.openRead imagePath with
    | error err => simp [copyFromCache, h1, h2] at hret
    | ok u =>
      rcases h3 : fs2.copy d.copyFault name imagePath with ⟨r, fs3⟩
      cases r with
      | error err => simp [copyFromCache, h1, h2, h3] at hret
      | ok u =>
        have hread : ∃ b, fs2.read imagePath = some b := by
          unfold FileSystem.openRead at h2
          split at h2
          · simp at h2
          · cases hb : fs2.read imagePath with
            | none => simp [hb] at h2
            | some b => exact ⟨b, rfl⟩
        obtain ⟨b, hb⟩ := hread
        have hfs3 : fs3 = fs2.write name b := by
          unfold FileSystem.copy FileSystem.readAll at h3
          split at h3
          · rename_i e he
            split at he
            · simp at h3
            · simp [hb] at he
          · rename_i c hc
            split at hc
            · simp at hc
            · simp only [hb, Except.ok.injEq] at hc
              subst hc
              cases hf : d.copyFault with
              | none => simpa [hf] using h3.symm
              | some n => simp [hf] at h3
        refine ⟨b, ?_, ?_⟩
        · rw [← hfs2]; exact hb
        · rw [← hfs2, ← hfs3]
          simp [copyFromCache, h1, h2, h3]

theorem fetchLibrary_cases (d : Deps) (fl : Flags) (fs : FileSystem) (t0 : List Event)
    (raw name : String) :
    (∃ err, d.GetImage fl.PullLibraryURI fl.authToken raw = .error err ∧
      fetchLibrary d fl fs t0 raw name =
        ⟨.fatal (.gettingImageInfo err),
          t0 ++ [.getImage fl.PullLibraryURI fl.authToken raw], fs⟩) ∨
    (∃ hash err, d.GetImage fl.PullLibraryURI fl.authToken raw = .ok hash ∧
      d.LibraryImageExists fs hash (d.GetName raw) = .error err ∧
      fetchLibrary d fl fs t0 raw name =
        ⟨.fatal (.cacheCheck (d.LibraryImage hash (d.GetName raw)) err),
          t0 ++ [.getImage fl.PullLibraryURI fl.authToken raw] ++
            [.libraryImageExists hash (d.GetName raw)], fs⟩) ∨
    (∃ hash, d.GetImage fl.PullLibraryURI fl.authToken raw = .ok hash ∧
      d.LibraryImageExists fs hash (d.GetName raw) = .ok true ∧
      fetchLibrary d fl fs t0 raw name =
        copyFromCache d fs
          (t0 ++ [.getImage fl.PullLibraryURI fl.authToken raw] ++
            [.libraryImageExists hash (d.GetName raw)])
          name (d.LibraryImage hash (d.GetName raw))) ∨
    (∃ hash, d.GetImage fl.PullLibraryURI fl.authToken raw = .ok hash ∧
      d.LibraryImageExists fs hash (d.GetName raw) = .ok false ∧
      fetchLibrary d fl fs t0 raw name =
        copyFromCache d
          (d.DownloadImage fs (d.LibraryImage hash (d.GetName raw)) raw fl.PullLibraryURI
            false fl.authToken).1
          (t0 ++ [.getImage fl.PullLibraryURI fl.authToken raw] ++
            [.libraryImageExists hash (d.GetName raw)] ++
            [.downloadImage (d.LibraryImage hash (d.GetName raw)) raw fl.PullLibraryURI
              false fl.authToken])
          name (d.LibraryImage hash (d.GetName raw))) := by
  cases h1 : d.GetImage fl.PullLibraryURI fl.authToken raw with
  | error err => exact Or.inl ⟨err, rfl, by simp [fetchLibrary, h1]⟩
  | ok hash =>
    cases h2 : d.LibraryImageExists fs hash (d.GetName raw) with
    | error err => exact Or.inr (Or.inl ⟨hash, err, rfl, h2, by simp [fetchLibrary, h1, h2]⟩)
    | ok found =>
      cases found with
      | true => exact Or.inr (Or.inr (Or.inl ⟨hash, rfl, h2, by simp [fetchLibrary, h1, h2]⟩))
      | false => exact Or.inr (Or.inr (Or.inr ⟨hash, rfl, h2, by simp [fetchLibrary, h1, h2]⟩))

theorem pullLibrary_cases (d : Deps) (fl : Flags) (fs : FileSystem) (raw name : String) :
    (fl.force = false ∧ (∃ b, fs.read name = some b) ∧
      pullLibrary d fl fs raw name = ⟨.fatal .imageExists, [.stat name], fs⟩) ∨
    (∃ t0, (fl.force = true ∨ fs.read name = none) ∧
      pullLibrary d fl fs raw name = fetchLibrary d fl fs t0 raw name) := by
  cases hf : fl.force with
  | true => exact Or.inr ⟨[], Or.inl rfl, by simp [pullLibrary, hf]⟩
  | false =>
    cases hr : fs.read name with
    | none =>
      exact Or.inr ⟨[.stat name], Or.inr rfl, by simp [pullLibrary, hf, FileSystem.stat, hr]⟩
    | some b =>
      exact Or.inl ⟨rfl, ⟨b, rfl⟩, by simp [pullLibrary, hf, FileSystem.stat, hr]⟩

theorem fetchLibrary_outcome (d : Deps) (fl : Flags) (fs : FileSystem) (t0 : List Event)
    (raw name : String) :
    (fetchLibrary d fl fs t0 raw name).outcome = .returned ∨
      (∃ err, (fetchLibrary d fl fs t0 raw name).outcome = .fatal (.gettingImageInfo err)) ∨
      (∃ path err, (fetchLibrary d fl fs t0 raw name).outcome = .fatal (.cacheCheck path err)) ∨
      (∃ err, (fetchLibrary d fl fs t0 raw name).outcome = .fatal (.openDst err)) ∨
      (∃ err, (fetchLibrary d fl fs t0 raw name).outcome = .fatal (.openSrc err)) ∨
      (∃ err, (fetchLibrary d fl fs t0 raw name).outcome = .fatal (.copy err)) := by
  rcases fetchLibrary_cases d fl fs t0 raw name with
    ⟨err, _, h⟩ | ⟨hash, err, _, _, h⟩ | ⟨hash, _, _, h⟩ | ⟨hash, _, _, h⟩
  · exact Or.inr (Or.inl ⟨err, by rw [h]⟩)
  · exact Or.inr (Or.inr (Or.inl ⟨_, err, by rw [h]⟩))
  · rw [h]
    rcases copyFromCache_outcome d fs _ name (d.LibraryImage hash (d.GetName raw)) with
      h | h | h | h
    · exact Or.inl h
    · exact Or.inr (Or.inr (Or.inr (Or.inl h)))
    · exact Or.inr (Or.inr (Or.inr (Or.inr (Or.inl h))))
    · exact Or.inr (Or.inr (Or.inr (Or.inr (Or.inr h))))
  · rw [h]
    rcases copyFromCache_outcome d _ _ name (d.LibraryImage hash (d.GetName raw)) with
      h | h | h | h
    · exact Or.inl h
    · exact Or.inr (Or.inr (Or.inr (Or.inl h)))
    · exact Or.inr (Or.inr (Or.inr (Or.inr (Or.inl h))))
    · exact Or.inr (Or.inr (Or.inr (Or.inr (Or.inr h))))

theorem pullLibrary_not_badUri (d : Deps) (fl : Flags) (fs : FileSystem) (raw name : String)
    (a : String) : (pullLibrary d fl fs raw name).outcome ≠ .fatal (.badUri a) := by
  rcases pullLibrary_cases d fl fs raw name with ⟨_, _, h⟩ | ⟨t0, _, h⟩
  · rw [h]; simp
  · rw [h]
    rcases fetchLibrary_outcome d fl fs t0 raw name with
      h | ⟨_, h⟩ | ⟨_, _, h⟩ | ⟨_, h⟩ | ⟨_, h⟩ | ⟨_, h⟩ <;> rw [h] <;> simp

theorem pullRun_mem (d : Deps) (fl : Flags) (fs : FileSystem) (args : List String)
    (raw : String) (hlast : args.getLast? = some raw) (e : Event)
    (he : e ∈ (pullRun d fl fs args).trace) :
    e ∈ (pullLibrary d fl fs raw (pullName d fl args raw)).trace ∨
      e = .pullShubImage (pullName d fl args raw) raw fl.force fl.noHTTPS ∨
      e = .pullNetImage (pullName d fl args raw) raw fl.force ∨
      e = .makeDockerCredentials ∨
      ∃ authConf, e = .pullOciImage (pullName d fl args raw) raw
        ⟨fl.tmpDir, fl.force, fl.noHTTPS, authConf⟩ := by
  by_cases href : (d.Split raw).2 = ""
  · simp [pullRun, hlast, href] at he
  · rw [pullRun_of_last d fl fs args raw hlast href] at he
    simp only at he
    split at he
    · exact Or.inl he
    · split at he
      · simp only [List.mem_singleton] at he
        exact Or.inr (Or.inl he)
      · split at he
        · simp only [List.mem_singleton] at he
          exact Or.inr (Or.inr (Or.inl he))
        · cases hc : d.makeDockerCredentials with
          | error err =>
            simp only [hc, List.mem_singleton] at he
            exact Or.inr (Or.inr (Or.inr (Or.inl he)))
          | ok authConf =>
            simp only [hc, List.mem_cons, List.mem_singleton, List.not_mem_nil, or_false] at he
            rcases he with h | h
            · exact Or.inr (Or.inr (Or.inr (Or.inl h)))
            · exact Or.inr (Or.inr (Or.inr (Or.inr ⟨authConf, h⟩)))

theorem pullLibrary_head_stat (d : Deps) (fl : Flags) (fs : FileSystem) (raw name : String)
    (hforce : fl.force = false) :
    (pullLibrary d fl fs raw name).trace.head? = some (.stat name) := by
  cases hs : fs.stat name with
  | ok u => simp [pullLibrary, hforce, hs]
  | error err =>
    have h : pullLibrary d fl fs raw name = fetchLibrary d fl fs [.stat name] raw name := by
      simp [pullLibrary, hforce, hs]
    rw [h]
    rcases fetchLibrary_cases d fl fs [.stat name] raw name with
      ⟨_, _, h⟩ | ⟨_, _, _, _, h⟩ | ⟨hash, _, _, h⟩ | ⟨hash, _, _, h⟩
    · rw [h]; rfl
    · rw [h]; rfl
    · rw [h]
      obtain ⟨rest, hrest, _⟩ := copyFromCache_trace d fs
        ([.stat name] ++ [.getImage fl.PullLibraryURI fl.authToken raw] ++
          [.libraryImageExists hash (d.GetName raw)])
        name (d.LibraryImage hash (d.GetName raw))
      rw [hrest]; rfl
    · rw [h]
      obtain ⟨rest, hrest, _⟩ := copyFromCache_trace d
        (d.DownloadImage fs (d.LibraryImage hash (d.GetName raw)) raw fl.PullLibraryURI
          false fl.authToken).1
        ([.stat name] ++ [.getImage fl.PullLibraryURI fl.authToken raw] ++
          [.libraryImageExists hash (d.GetName raw)] ++
          [.downloadImage (d.LibraryImage hash (d.GetName raw)) raw fl.PullLibraryURI
            false fl.authToken])
        name (d.LibraryImage hash (d.GetName raw))
      rw [hrest]; rfl

theorem pullLibrary_opens_destination (d : Deps) (fl : Flags) (fs : FileSystem)
    (raw name hash : String) (found : Bool)
    (hover : fl.force = true ∨ fs.read name = none)
    (hget : d.GetImage fl.PullLibraryURI fl.authToken raw = .ok hash)
    (hx : d.LibraryImageExists fs hash (d.GetName raw) = .ok found) :
    .openDst name ∈ (pullLibrary d fl fs raw name).trace := by
  rcases pullLibrary_cases d fl fs raw name with ⟨hf, ⟨c, hc⟩, _⟩ | ⟨t0, _, h⟩
  · rcases hover with h | h
    · rw [hf] at h; cases h
    · rw [hc] at h; cases h
  · rw [h]
    rcases fetchLibrary_cases d fl fs t0 raw name with
      ⟨_, hg, _⟩ | ⟨_, _, hg, hx2, _⟩ | ⟨hash2, _, _, h⟩ | ⟨hash2, _, _, h⟩
    · rw [hget] at hg; cases hg
    · rw [hget] at hg; cases hg
      rw [hx] at hx2; cases hx2
    · rw [h]
      obtain ⟨rest, hrest, _⟩ := copyFromCache_trace d fs
        (t0 ++ [.getImage fl.PullLibraryURI fl.authToken raw] ++
          [.libraryImageExists hash2 (d.GetName raw)])
        name (d.LibraryImage hash2 (d.GetName raw))
      rw [hrest]; simp
    · rw [h]
      obtain ⟨rest, hrest, _⟩ := copyFromCache_trace d
        (d.DownloadImage fs (d.LibraryImage hash2 (d.GetName raw)) raw fl.PullLibraryURI
          false fl.authToken).1
        (t0 ++ [.getImage fl.PullLibraryURI fl.authToken raw] ++
          [.libraryImageExists hash2 (d.GetName raw)] ++
          [.downloadImage (d.LibraryImage hash2 (d.GetName raw)) raw fl.PullLibraryURI
            false fl.authToken])
        name (d.LibraryImage hash2 (d.GetName raw))
      rw [hrest]; simp

/-- C1: for a `pull` with one or two positional arguments and a reference
whose locator is not empty, `pullRun` works on the destination name given by
the priority rule: the explicit override `PullImageName` when that is not
empty, else the first positional argument when two were given, else
`uri.GetName` of the reference.  That name is the one `pullRun` hands on: on
the Library branch the first call of a pull without `force` is the stat of
that name, and a pull that passes the overwrite check, gets the metadata and
the answer of the cache opens that name for writing; the legacy-hub, the
direct-download and (once the credentials are built) the OCI-registry strategy
are called on that name; and no call `pullRun` makes on a destination is made
on any other name.  The name depends on nothing but the override, the
arguments and `uri.GetName`, so two runs with the same reference and no
override work on the same name. -/
theorem pullRun_destination_name (d : Deps) (fl : Flags) (fs : FileSystem)
    (args : List String) (raw : String)
    (hlen : args.length = 1 ∨ args.length = 2) (hlast : args.getLast? = some raw)
    (href : (d.Split raw).2 ≠ "") :
    specDestinationName d fl args =
      (if fl.PullImageName ≠ "" then fl.PullImageName
       else if args.length = 2 then args.headD "" else d.GetName raw) ∧
    pullName d fl args raw = specDestinationName d fl args ∧
    (((d.Split raw).1 = "library" ∨ (d.Split raw).1 = "") → fl.force = false →
      (pullRun d fl fs args).trace.head? = some (.stat (specDestinationName d fl args))) ∧
    (((d.Split raw).1 = "library" ∨ (d.Split raw).1 = "") →
      (fl.force = true ∨ fs.read (specDestinationName d fl args) = none) →
      ∀ hash found, d.GetImage fl.PullLibraryURI fl.authToken raw = .ok hash →
        d.LibraryImageExists fs hash (d.GetName raw) = .ok found →
        .openDst (specDestinationName d fl args) ∈ (pullRun d fl fs args).trace) ∧
    ((d.Split raw).1 = "shub" →
      (pullRun d fl fs args).trace =
        [.pullShubImage (specDestinationName d fl args) raw fl.force fl.noHTTPS]) ∧
    (((d.Split raw).1 = "http" ∨ (d.Split raw).1 = "https") →
      (pullRun d fl fs args).trace =
        [.pullNetImage (specDestinationName d fl args) raw fl.force]) ∧
    ((d.Split raw).1 ∉ ["library", "", "shub", "http", "https"] →
      ∀ authConf, d.makeDockerCredentials = .ok authConf →
        (pullRun d fl fs args).trace =
          [.makeDockerCredentials,
            .pullOciImage (specDestinationName d fl args) raw
              ⟨fl.tmpDir, fl.force, fl.noHTTPS, authConf⟩]) ∧
    (∀ e ∈ (pullRun d fl fs args).trace, ∀ n, e.destination? = some n →
      n = specDestinationName d fl args) ∧
    (∀ (fl2 : Flags) (fs2 : FileSystem), fl2.PullImageName = "" → fl.PullImageName = "" →
      args = [raw] →
      specDestinationName d fl2 args = d.GetName raw ∧
      specDestinationName d fl args = d.GetName raw ∧
      ∀ e ∈ (pullRun d fl2 fs2 args).trace, ∀ n, e.destination? = some n →
        n = d.GetName raw) := by
  have hname := pullName_eq_spec d fl args raw hlen hlast
  have hrun := pullRun_of_last d fl fs args raw hlast href
  simp only [LibraryProtocol, ShubProtocol, HTTPProtocol, HTTPSProtocol] at hrun
  have htrace : ∀ (fl : Flags) (fs : FileSystem),
      ∀ e ∈ (pullRun d fl fs args).trace, ∀ n, e.destination? = some n →
        n = specDestinationName d fl args := by
    intro fl fs e he n hn
    rw [← pullName_eq_spec d fl args raw hlen hlast]
    rcases pullRun_mem d fl fs args raw hlast e he with h | h | h | h | ⟨_, h⟩
    · exact pullLibrary_destination d fl fs raw _ e h n hn
    all_goals
      subst h
      simp [Event.destination?] at hn
      try exact hn.symm
  refine ⟨?_, hname, ?_, ?_, ?_, ?_, ?_, htrace fl fs, ?_⟩
  · match args, hlen with
    | [a], _ =>
      simp at hlast
      subst hlast
      by_cases h : fl.PullImageName = "" <;> simp [specDestinationName, h]
    | [a, b], _ =>
      by_cases h : fl.PullImageName = "" <;> simp [specDestinationName, h]
  · intro hlib hforce
    rw [pullRun_library d fl fs args raw hlast href hlib, ← hname]
    exact pullLibrary_head_stat d fl fs raw _ hforce
  · intro hlib hover hash found hget hx
    rw [pullRun_library d fl fs args raw hlast href hlib, ← hname]
    rw [← hname] at hover
    exact pullLibrary_opens_destination d fl fs raw _ hash found hover hget hx
  · intro hshub
    rw [hrun, ← hname]
    simp [hshub]
  · intro hnet
    rw [hrun, ← hname]
    rcases hnet with h | h <;> simp [h]
  · intro hother authConf hc
    simp only [List.mem_cons, List.mem_singleton, List.not_mem_nil, or_false, not_or] at hother
    obtain ⟨h1, h2, h3, h4, h5⟩ := hother
    rw [hrun, ← hname]
    simp [h1, h2, h3, h4, h5, hc]
  · intro fl2 fs2 h2 h1 hargs
    have e1 : specDestinationName d fl args = d.GetName raw := by
      subst hargs
      simp [specDestinationName, h1]
    have e2 : specDestinationName d fl2 args = d.GetName raw := by
      subst hargs
      simp [specDestinationName, h2]
    refine ⟨e2, e1, ?_⟩
    intro e he n hn
    rw [← e2]
    exact htrace fl2 fs2 e he n hn

theorem pullRun_destination_name_witness :
    (["shub://u/c"] : List String).length = 1 ∧
    (["shub://u/c"] : List String).getLast? = some "shub://u/c" ∧
    (["mine.sif", "shub://u/c"] : List String).length = 2 ∧
    (["mine.sif", "shub://u/c"] : List String).getLast? = some "shub://u/c" ∧
    (sampleDeps.Split "shub://u/c").2 ≠ "" ∧
    (sampleDeps.Split "shub://u/c").1 = "shub" ∧
    (pullRun sampleDeps defaultFlags emptyFS ["shub://u/c"]).trace =
      [.pullShubImage "c" "shub://u/c" false false] ∧
    (pullRun sampleDeps defaultFlags emptyFS ["mine.sif", "shub://u/c"]).trace =
      [.pullShubImage "mine.sif" "shub://u/c" false false] ∧
    (pullRun sampleDeps namedFlags emptyFS ["mine.sif", "shub://u/c"]).trace =
      [.pullShubImage "named.sif" "shub://u/c" false false] ∧
    (pullRun sampleDeps namedFlags emptyFS ["shub://u/c"]).trace =
      [.pullShubImage "named.sif" "shub://u/c" false false] ∧
    (["mine.sif", "library://sylabs/alpine"] : List String).getLast? =
      some "library://sylabs/alpine" ∧
    (sampleDeps.Split "library://sylabs/alpine").2 ≠ "" ∧
    (sampleDeps.Split "library://sylabs/alpine").1 = "library" ∧
    defaultFlags.force = false ∧
    (pullRun sampleDeps defaultFlags emptyFS ["library://sylabs/alpine"]).trace.head? =
      some (.stat "alpine") ∧
    (pullRun sampleDeps defaultFlags emptyFS
      ["mine.sif", "library://sylabs/alpine"]).trace.head? = some (.stat "mine.sif") ∧
    (pullRun sampleDeps namedFlags emptyFS
      ["mine.sif", "library://sylabs/alpine"]).trace.head? = some (.stat "named.sif") ∧
    Event.openDst "mine.sif" ∈
      (pullRun sampleDeps defaultFlags emptyFS ["mine.sif", "library://sylabs/alpine"]).trace :=
  ⟨by decide, by decide, by decide, by decide, by decide, by decide,
    (pullRun_destination_name sampleDeps defaultFlags emptyFS ["shub://u/c"] "shub://u/c"
      (Or.inl (by decide)) (by decide) (by decide)).2.2.2.2.1 (by decide),
    (pullRun_destination_name sampleDeps defaultFlags emptyFS ["mine.sif", "shub://u/c"]
      "shub://u/c" (Or.inr (by decide)) (by decide) (by decide)).2.2.2.2.1 (by decide),
    (pullRun_destination_name sampleDeps namedFlags emptyFS ["mine.sif", "shub://u/c"]
      "shub://u/c" (Or.inr (by decide)) (by decide) (by decide)).2.2.2.2.1 (by decide),
    (pullRun_destination_name sampleDeps namedFlags emptyFS ["shub://u/c"]
      "shub://u/c" (Or.inl (by decide)) (by decide) (by decide)).2.2.2.2.1 (by decide),
    by decide, by decide, by decide, by decide,
    (pullRun_destination_name sampleDeps defaultFlags emptyFS ["library://sylabs/alpine"]
      "library://sylabs/alpine" (Or.inl (by decide)) (by decide) (by decide)).2.2.1
      (Or.inl (by decide)) (by decide),
    (pullRun_destination_name sampleDeps defaultFlags emptyFS
      ["mine.sif", "library://sylabs/alpine"]
      "library://sylabs/alpine" (Or.inr (by decide)) (by decide) (by decide)).2.2.1
      (Or.inl (by decide)) (by decide),
    (pullRun_destination_name sampleDeps namedFlags emptyFS
      ["mine.sif", "library://sylabs/alpine"]
      "library://sylabs/alpine" (Or.inr (by decide)) (by decide) (by decide)).2.2.1
      (Or.inl (by decide)) (by decide),
    (pullRun_destination_name sampleDeps defaultFlags emptyFS
      ["mine.sif", "library://sylabs/alpine"]
      "library://sylabs/alpine" (Or.inr (by decide)) (by decide) (by decide)).2.2.2.1
      (Or.inl (by decide)) (Or.inr (by decide)) "h1" false rfl rfl⟩

/-- C6: when the locator that `uri.Split` returns for the reference is empty,
`pullRun` ends with the fatal error `bad uri` on that reference, having made
no call at all (no name resolution is observable, no file system access, no
fetch strategy) and leaving the file system as it was; when the locator is not
empty, `pullRun` never ends with the `bad uri` error. -/
theorem pullRun_bad_uri (d : Deps) (fl : Flags) (fs : FileSystem) (args : List String)
    (raw : String) (hlast : args.getLast? = some raw) :
    ((d.Split raw).2 = "" →
      pullRun d fl fs args = ⟨.fatal (.badUri raw), [], fs⟩) ∧
    ((d.Split raw).2 ≠ "" →
      ∀ a, (pullRun d fl fs args).outcome ≠ .fatal (.badUri a)) := by
  constructor
  · intro href
    simp [pullRun, hlast, href]
  · intro href a
    rw [pullRun_of_last d fl fs args raw hlast href]
    simp only
    split
    · exact pullLibrary_not_badUri d fl fs raw _ a
    · split
      · simp
      · split
        · simp
        · cases hc : d.makeDockerCredentials <;> simp

theorem pullRun_bad_uri_witness :
    (["library://"] : List String).getLast? = some "library://" ∧
    (sampleDeps.Split "library://").2 = "" ∧
    pullRun sampleDeps defaultFlags emptyFS ["library://"]
      = ⟨.fatal (.badUri "library://"), [], emptyFS⟩ ∧
    (sampleDeps.Split "library://alpine").2 ≠ "" ∧
    (pullRun sampleDeps defaultFlags emptyFS ["library://alpine"]).outcome
      ≠ .fatal (.badUri "library://alpine") :=
  ⟨by decide, by decide,
    (pullRun_bad_uri sampleDeps defaultFlags emptyFS ["library://"] "library://"
      (by decide)).1 (by decide),
    by decide,
    (pullRun_bad_uri sampleDeps defaultFlags emptyFS ["library://alpine"] "library://alpine"
      (by decide)).2 (by decide) "library://alpine"⟩

/-- C3: a Library-transport pull (transport `library` or empty) without
`force` whose destination file exists ends with the fatal error `image file
already exists - will not overwrite`; the only call made is the stat of the
destination, so the failure comes before the metadata query, before any
download and before the destination is opened, and the file system, the
destination file included, is left as it was. -/
theorem pullRun_destination_exists (d : Deps) (fl : Flags) (fs : FileSystem)
    (args : List String) (raw : String) (content : Bytes)
    (hlast : args.getLast? = some raw) (href : (d.Split raw).2 ≠ "")
    (hlib : (d.Split raw).1 = LibraryProtocol ∨ (d.Split raw).1 = "")
    (hforce : fl.force = false)
    (hdst : fs.read (pullName d fl args raw) = some content) :
    pullRun d fl fs args =
      ⟨.fatal .imageExists, [.stat (pullName d fl args raw)], fs⟩ ∧
    (pullRun d fl fs args).fs.read (pullName d fl args raw) = some content := by
  have h : pullRun d fl fs args =
      ⟨.fatal .imageExists, [.stat (pullName d fl args raw)], fs⟩ := by
    rw [pullRun_library d fl fs args raw hlast href hlib]
    simp [pullLibrary, hforce, FileSystem.stat, hdst]
  exact ⟨h, by rw [h]; exact hdst⟩

theorem pullRun_destination_exists_witness :
    (["library://alpine"] : List String).getLast? = some "library://alpine" ∧
    (sampleDeps.Split "library://alpine").2 ≠ "" ∧
    ((sampleDeps.Split "library://alpine").1 = LibraryProtocol ∨
      (sampleDeps.Split "library://alpine").1 = "") ∧
    defaultFlags.force = false ∧
    FileSystem.read ⟨[("alpine", [4, 2])], [], [], "/work", []⟩
      (pullName sampleDeps defaultFlags ["library://alpine"] "library://alpine")
      = some [4, 2] ∧
    pullRun sampleDeps defaultFlags ⟨[("alpine", [4, 2])], [], [], "/work", []⟩ ["library://alpine"]
      = ⟨.fatal .imageExists, [.stat "alpine"], ⟨[("alpine", [4, 2])], [], [], "/work", []⟩⟩ :=
  ⟨by decide, by decide, by decide, by decide, by decide,
    (pullRun_destination_exists sampleDeps defaultFlags ⟨[("alpine", [4, 2])], [], [], "/work", []⟩
      ["library://alpine"] "library://alpine" [4, 2]
      (by decide) (by decide) (by decide) (by decide) (by decide)).1⟩

/-- C2, as stated, fails twice.  With a registry reference and Docker
credentials that cannot be built, `pullRun` ends with the fatal error of the
credentials and hands the pull to no strategy although the locator is not
empty.  And the string a delegated strategy receives is not the locator: for
`shub://u/c` the locator is `u/c`, the legacy-hub strategy is called on
`shub://u/c`. -/
theorem pullRun_dispatch_counterexample :
    (noCredentialsDeps.Split "docker://alpine").2 ≠ "" ∧
    pullRun noCredentialsDeps defaultFlags emptyFS ["docker://alpine"] =
      ⟨.fatal (.dockerCredentials "unable to read a username from stdin"),
        [.makeDockerCredentials], emptyFS⟩ ∧
    (pullRun noCredentialsDeps defaultFlags emptyFS ["docker://alpine"]).trace.filter
      Event.isDelegation = [] ∧
    sampleDeps.Split "shub://u/c" = ("shub", "u/c") ∧
    (pullRun sampleDeps defaultFlags emptyFS ["shub://u/c"]).trace =
      [.pullShubImage "c" "shub://u/c" false false] ∧
    (pullRun sampleDeps defaultFlags emptyFS ["shub://u/c"]).trace ≠
      [.pullShubImage "c" (sampleDeps.Split "shub://u/c").2 false false] := by
  decide

/-- C2, amended: for a reference with a non-empty locator the branch `pullRun`
takes depends on the transport alone.  For `library` or the empty transport it
is the Library branch, which calls none of the delegated strategies.  For
`shub` the only call is the legacy-hub strategy on (destination name, reference
as given, force, noHTTPS); for `http` or `https` the only call is the
direct-download strategy on (destination name, reference as given, force).
For every other transport `pullRun` first builds the Docker credentials: when
that succeeds the only further call is the OCI-registry strategy on
(destination name, reference as given, options with tmpDir, force, noHTTPS and
the credentials); when it fails `pullRun` ends with the fatal error of the
credentials and calls no strategy.  In the delegated cases the force flag is
passed as it is, no stat of the destination is made, and `pullRun` leaves the
file system as it was. -/
theorem pullRun_dispatch (d : Deps) (fl : Flags) (fs : FileSystem) (args : List String)
    (raw : String) (hlast : args.getLast? = some raw) (href : (d.Split raw).2 ≠ "") :
    (((d.Split raw).1 = "library" ∨ (d.Split raw).1 = "") →
      pullRun d fl fs args = pullLibrary d fl fs raw (pullName d fl args raw) ∧
      ∀ e ∈ (pullRun d fl fs args).trace, e.isDelegation = false) ∧
    ((d.Split raw).1 = "shub" →
      pullRun d fl fs args =
        ⟨.returned, [.pullShubImage (pullName d fl args raw) raw fl.force fl.noHTTPS], fs⟩) ∧
    (((d.Split raw).1 = "http" ∨ (d.Split raw).1 = "https") →
      pullRun d fl fs args =
        ⟨.returned, [.pullNetImage (pullName d fl args raw) raw fl.force], fs⟩) ∧
    ((d.Split raw).1 ∉ ["library", "", "shub", "http", "https"] →
      (∀ authConf, d.makeDockerCredentials = .ok authConf →
        pullRun d fl fs args =
          ⟨.returned, [.makeDockerCredentials,
            .pullOciImage (pullName d fl args raw) raw
              ⟨fl.tmpDir, fl.force, fl.noHTTPS, authConf⟩], fs⟩) ∧
      (∀ err, d.makeDockerCredentials = .error err →
        pullRun d fl fs args =
          ⟨.fatal (.dockerCredentials err), [.makeDockerCredentials], fs⟩)) := by
  have hrun := pullRun_of_last d fl fs args raw hlast href
  simp only [LibraryProtocol, ShubProtocol, HTTPProtocol, HTTPSProtocol] at hrun
  refine ⟨?_, ?_, ?_, ?_⟩
  · intro hlib
    have hl : pullRun d fl fs args = pullLibrary d fl fs raw (pullName d fl args raw) :=
      pullRun_library d fl fs args raw hlast href hlib
    refine ⟨hl, ?_⟩
    intro e he
    rw [hl] at he
    rcases pullLibrary_mem d fl fs raw _ e he with
      h | h | ⟨_, h⟩ | ⟨_, _, _, h⟩ | h | ⟨_, h⟩ | ⟨_, h⟩ <;>
      subst h <;> rfl
  · intro hshub
    rw [hrun]
    simp [hshub]
  · intro hnet
    rw [hrun]
    rcases hnet with h | h <;> simp [h]
  · intro hother
    simp only [List.mem_cons, List.mem_singleton, List.not_mem_nil, or_false, not_or] at hother
    obtain ⟨h1, h2, h3, h4, h5⟩ := hother
    constructor
    · intro authConf hc
      rw [hrun]
      simp [h1, h2, h3, h4, h5, hc]
    · intro err hc
      rw [hrun]
      simp [h1, h2, h3, h4, h5, hc]

theorem pullRun_dispatch_witness :
    (["shub://u/c"] : List String).getLast? = some "shub://u/c" ∧
    (sampleDeps.Split "shub://u/c").2 ≠ "" ∧
    (sampleDeps.Split "shub://u/c").1 = "shub" ∧
    pullRun sampleDeps defaultFlags emptyFS ["shub://u/c"] =
      ⟨.returned, [.pullShubImage "c" "shub://u/c" false false], emptyFS⟩ ∧
    (["docker://alpine"] : List String).getLast? = some "docker://alpine" ∧
    (sampleDeps.Split "docker://alpine").2 ≠ "" ∧
    (sampleDeps.Split "docker://alpine").1 ∉ ["library", "", "shub", "http", "https"] ∧
    sampleDeps.makeDockerCredentials = .ok none ∧
    pullRun sampleDeps defaultFlags emptyFS ["docker://alpine"] =
      ⟨.returned, [.makeDockerCredentials,
        .pullOciImage "alpine" "docker://alpine" ⟨"", false, false, none⟩], emptyFS⟩ :=
  ⟨by decide, by decide, by decide,
    (pullRun_dispatch sampleDeps defaultFlags emptyFS ["shub://u/c"] "shub://u/c"
      (by decide) (by decide)).2.1 (by decide),
    by decide, by decide, by decide, rfl,
    ((pullRun_dispatch sampleDeps defaultFlags emptyFS ["docker://alpine"] "docker://alpine"
      (by decide) (by decide)).2.2.2 (by decide)).1 none rfl⟩

theorem pullLibrary_unchanged (d : Deps) (fl : Flags) (fs : FileSystem) (raw name : String)
    (f : Fatal) (hout : (pullLibrary d fl fs raw name).outcome = .fatal f)
    (hf : f = .imageExists ∨ (∃ err, f = .gettingImageInfo err) ∨
      (∃ path err, f = .cacheCheck path err)) :
    (pullLibrary d fl fs raw name).fs = fs := by
  rcases pullLibrary_cases d fl fs raw name with ⟨_, _, h⟩ | ⟨t0, _, h⟩
  · rw [h]
  · rw [h] at hout ⊢
    rcases fetchLibrary_cases d fl fs t0 raw name with
      ⟨err, _, h⟩ | ⟨hash, err, _, _, h⟩ | ⟨hash, _, _, h⟩ | ⟨hash, _, _, h⟩
    · rw [h]
    · rw [h]
    all_goals
      rw [h] at hout
      exfalso
      rcases copyFromCache_outcome d _ _ name (d.LibraryImage hash (d.GetName raw)) with
        h' | ⟨_, h'⟩ | ⟨_, h'⟩ | ⟨_, h'⟩ <;> rw [h'] at hout <;>
        rcases hf with hf | ⟨_, hf⟩ | ⟨_, _, hf⟩ <;> subst hf <;> simp at hout

theorem pullLibrary_returned (d : Deps) (fl : Flags) (fs : FileSystem) (raw name : String)
    (hout : (pullLibrary d fl fs raw name).outcome = .returned) :
    ∃ hash found b, d.GetImage fl.PullLibraryURI fl.authToken raw = .ok hash ∧
      d.LibraryImageExists fs hash (d.GetName raw) = .ok found ∧
      ((if found then fs else
          (d.DownloadImage fs (d.LibraryImage hash (d.GetName raw)) raw fl.PullLibraryURI
            false fl.authToken).1).write name []).read
        (d.LibraryImage hash (d.GetName raw)) = some b ∧
      (pullLibrary d fl fs raw name).fs =
        ((if found then fs else
          (d.DownloadImage fs (d.LibraryImage hash (d.GetName raw)) raw fl.PullLibraryURI
            false fl.authToken).1).write name []).write name b := by
  rcases pullLibrary_cases d fl fs raw name with ⟨_, _, h⟩ | ⟨t0, _, h⟩
  · rw [h] at hout; simp at hout
  · rw [h] at hout ⊢
    rcases fetchLibrary_cases d fl fs t0 raw name with
      ⟨err, _, h⟩ | ⟨hash, err, _, _, h⟩ | ⟨hash, hg, hx, h⟩ | ⟨hash, hg, hx, h⟩
    · rw [h] at hout; simp at hout
    · rw [h] at hout; simp at hout
    · rw [h] at hout ⊢
      obtain ⟨b, hb, hfs⟩ := copyFromCache_returned d _ _ _ _ hout
      exact ⟨hash, true, b, hg, hx, by simpa using hb, by simpa using hfs⟩
    · rw [h] at hout ⊢
      obtain ⟨b, hb, hfs⟩ := copyFromCache_returned d _ _ _ _ hout
      exact ⟨hash, false, b, hg, hx, by simpa using hb, by simpa using hfs⟩

/-- C4, as stated, fails: a failure after the destination was opened leaves a
destination that is neither absent nor as it was.  With the library
unreachable the download writes nothing and its error is dropped; the
destination `alpine`, absent before the pull, is created empty, then the cached
image cannot be opened and the pull ends with a fatal error.  With `force` an
existing destination holding two bytes is left truncated to nothing by the
same failure.  And when the copy of a cached image of three bytes fails after
one byte, the destination, absent before, is left holding that one byte. -/
theorem pullRun_library_failure_counterexample :
    emptyFS.read "alpine" = none ∧
    (pullRun offlineDeps defaultFlags emptyFS ["library://alpine"]).outcome =
      .fatal (.openSrc "open /cache/library/h1/alpine: no such file or directory") ∧
    (pullRun offlineDeps defaultFlags emptyFS ["library://alpine"]).fs.read "alpine" =
      some [] ∧
    FileSystem.read ⟨[("alpine", [4, 2])], [], [], "/work", []⟩ "alpine" = some [4, 2] ∧
    (pullRun offlineDeps forceFlags ⟨[("alpine", [4, 2])], [], [], "/work", []⟩
      ["library://alpine"]).outcome =
      .fatal (.openSrc "open /cache/library/h1/alpine: no such file or directory") ∧
    (pullRun offlineDeps forceFlags ⟨[("alpine", [4, 2])], [], [], "/work", []⟩
      ["library://alpine"]).fs.read "alpine" = some [] ∧
    cachedFS.read "alpine" = none ∧
    (pullRun diskFullDeps defaultFlags cachedFS ["library://alpine"]).outcome =
      .fatal (.copy "write alpine: no space left on device") ∧
    (pullRun diskFullDeps defaultFlags cachedFS ["library://alpine"]).fs.read "alpine" =
      some [7] := by
  decide

/-- C4, amended: a Library-transport pull that fails before the destination is
opened (the destination exists and `force` is not set, the metadata query
fails, the cache check fails) leaves the file system exactly as it was; and a
Library-transport pull that returns leaves the destination holding exactly the
bytes of the cache path: the final file system is the one left by the cache
step (the initial one on a hit, the one the download left on a miss) with the
destination truncated and then written with the bytes `b` read at the cache
path, so that afterwards destination and cache path both hold `b`. -/
theorem pullRun_library_failure (d : Deps) (fl : Flags) (fs : FileSystem)
    (args : List String) (raw : String)
    (hlast : args.getLast? = some raw) (href : (d.Split raw).2 ≠ "")
    (hlib : (d.Split raw).1 = LibraryProtocol ∨ (d.Split raw).1 = "") :
    (∀ f, (pullRun d fl fs args).outcome = .fatal f →
      (f = .imageExists ∨ (∃ err, f = .gettingImageInfo err) ∨
        (∃ path err, f = .cacheCheck path err)) →
      (pullRun d fl fs args).fs = fs) ∧
    ((pullRun d fl fs args).outcome = .returned →
      ∃ hash found b, d.GetImage fl.PullLibraryURI fl.authToken raw = .ok hash ∧
        d.LibraryImageExists fs hash (d.GetName raw) = .ok found ∧
        (pullRun d fl fs args).fs =
          ((if found then fs else
            (d.DownloadImage fs (d.LibraryImage hash (d.GetName raw)) raw fl.PullLibraryURI
              false fl.authToken).1).write (pullName d fl args raw) []).write
            (pullName d fl args raw) b ∧
        (pullRun d fl fs args).fs.read (pullName d fl args raw) = some b ∧
        (pullRun d fl fs args).fs.read (d.LibraryImage hash (d.GetName raw)) = some b) := by
  rw [pullRun_library d fl fs args raw hlast href hlib]
  refine ⟨fun f hout hf => pullLibrary_unchanged d fl fs raw _ f hout hf, ?_⟩
  intro hout
  obtain ⟨hash, found, b, hg, hx, hb, hfs⟩ := pullLibrary_returned d fl fs raw _ hout
  refine ⟨hash, found, b, hg, hx, hfs, ?_, ?_⟩
  · rw [hfs]; exact read_write_same _ _ _
  · rw [hfs]
    by_cases hp : FileSystem.resolve
        ((if found then fs else
          (d.DownloadImage fs (d.LibraryImage hash (d.GetName raw)) raw fl.PullLibraryURI
            false fl.authToken).1).write (pullName d fl args raw) [])
        (d.LibraryImage hash (d.GetName raw)) =
      FileSystem.resolve
        ((if found then fs else
          (d.DownloadImage fs (d.LibraryImage hash (d.GetName raw)) raw fl.PullLibraryURI
            false fl.authToken).1).write (pullName d fl args raw) [])
        (pullName d fl args raw)
    · exact read_write_alias _ _ _ _ hp
    · rw [read_write_other _ _ _ _ hp]; exact hb

theorem pullRun_library_failure_witness :
    (["library://alpine"] : List String).getLast? = some "library://alpine" ∧
    (sampleDeps.Split "library://alpine").2 ≠ "" ∧
    ((sampleDeps.Split "library://alpine").1 = LibraryProtocol ∨
      (sampleDeps.Split "library://alpine").1 = "") ∧
    (pullRun sampleDeps defaultFlags emptyFS ["library://alpine"]).outcome = .returned ∧
    (pullRun sampleDeps defaultFlags emptyFS ["library://alpine"]).fs.read "alpine" =
      some [1, 2, 3] ∧
    (pullRun sampleDeps defaultFlags ⟨[("alpine", [4, 2])], [], [], "/work", []⟩
      ["library://alpine"]).outcome = .fatal .imageExists ∧
    (pullRun sampleDeps defaultFlags ⟨[("alpine", [4, 2])], [], [], "/work", []⟩ ["library://alpine"]).fs =
      ⟨[("alpine", [4, 2])], [], [], "/work", []⟩ :=
  ⟨by decide, by decide, by decide, by decide, by decide, by decide,
    (pullRun_library_failure sampleDeps defaultFlags ⟨[("alpine", [4, 2])], [], [], "/work", []⟩
      ["library://alpine"] "library://alpine" (by decide) (by decide) (by decide)).1
      .imageExists (by decide) (Or.inl rfl)⟩

theorem find_write {α : Type} (fs : FileSystem) (table : List (String × α)) (p q : String)
    (b : Bytes) : (fs.write p b).find table q = fs.find table q := rfl

end Singularity.Pull

/-! ## Properties of `oci` -/

namespace Singularity.Oci

theorem configJSON_eq : filepathJoin "/tmp" "config.json" = "/tmp/config.json" := by
  decide

theorem execOciStarter_cases {σ : Type} (d : Deps σ) (fs : FileSystem) (env0 : Environ) :
    (∃ err, fs.openRead "/tmp/config.json" = .error err ∧
      execOciStarter d fs env0 =
        ⟨.error ("failed to open /tmp/config.json: " ++ err),
          [.clearenv, .openConfig "/tmp/config.json"], []⟩) ∨
    (∃ err, fs.openRead "/tmp/config.json" = .ok () ∧
      fs.readAll "/tmp/config.json" = .error err ∧
      execOciStarter d fs env0 =
        ⟨.error ("failed to read /tmp/config.json: " ++ err),
          [.clearenv, .openConfig "/tmp/config.json", .readAll "/tmp/config.json"], []⟩) ∨
    (∃ data err, fs.openRead "/tmp/config.json" = .ok () ∧
      fs.readAll "/tmp/config.json" = .ok data ∧
      d.Unmarshal data d.NewSpec = .error err ∧
      execOciStarter d fs env0 =
        ⟨.error ("failed to parse /tmp/config.json: " ++ err),
          [.clearenv, .openConfig "/tmp/config.json", .readAll "/tmp/config.json",
            .close "/tmp/config.json", .unmarshal data], []⟩) ∨
    (∃ data spec, fs.openRead "/tmp/config.json" = .ok () ∧
      fs.readAll "/tmp/config.json" = .ok data ∧
      d.Unmarshal data d.NewSpec = .ok spec ∧
      (execOciStarter d fs env0).env =
        [("SRUNTIME", "oci"), ("SINGULARITY_MESSAGELEVEL", "0")] ∧
      ∃ rest, (execOciStarter d fs env0).trace =
        [.clearenv, .openConfig "/tmp/config.json", .readAll "/tmp/config.json",
          .close "/tmp/config.json", .unmarshal data, .setenv "SRUNTIME" "oci",
          .setenv "SINGULARITY_MESSAGELEVEL" "0",
          .marshal ⟨"test", "oci", ⟨"/tmp", spec⟩⟩] ++ rest ∧
        ∀ e ∈ rest, ∃ configData,
          d.Marshal ⟨"test", "oci", ⟨"/tmp", spec⟩⟩ = .ok configData ∧
          (e = .pipeCommand (d.LIBEXECDIR ++ "/singularity/bin/starter") ["OCI"]
              ["SRUNTIME=oci", "SINGULARITY_MESSAGELEVEL=0"] configData ∨
            e = .run (d.LIBEXECDIR ++ "/singularity/bin/starter") ["OCI"]
              ["SRUNTIME=oci", "SINGULARITY_MESSAGELEVEL=0"] configData)) := by
  have henv : environ [("SRUNTIME", "oci"), ("SINGULARITY_MESSAGELEVEL", "0")] =
      ["SRUNTIME=oci", "SINGULARITY_MESSAGELEVEL=0"] := by
    decide
  have henv2 : setenv (setenv (clearenv env0) "SRUNTIME" "oci")
      "SINGULARITY_MESSAGELEVEL" "0" =
      [("SRUNTIME", "oci"), ("SINGULARITY_MESSAGELEVEL", "0")] := by
    have h : setenv (setenv [] "SRUNTIME" "oci") "SINGULARITY_MESSAGELEVEL" "0" =
        [("SRUNTIME", "oci"), ("SINGULARITY_MESSAGELEVEL", "0")] := by decide
    exact h
  cases h1 : fs.openRead "/tmp/config.json" with
  | error err =>
    exact Or.inl ⟨err, rfl, by simp [execOciStarter, configJSON_eq, h1, clearenv]⟩
  | ok u =>
    cases h2 : fs.readAll "/tmp/config.json" with
    | error err =>
      exact Or.inr (Or.inl ⟨err, rfl, rfl,
        by simp [execOciStarter, configJSON_eq, h1, h2, clearenv]⟩)
    | ok data =>
      cases h3 : d.Unmarshal data d.NewSpec with
      | error err =>
        exact Or.inr (Or.inr (Or.inl ⟨data, err, rfl, rfl, h3,
          by simp [execOciStarter, configJSON_eq, h1, h2, h3, clearenv]⟩))
      | ok spec =>
        refine Or.inr (Or.inr (Or.inr ⟨data, spec, rfl, rfl, h3, ?_⟩))
        cases h4 : d.Marshal ⟨"test", "oci", ⟨"/tmp", spec⟩⟩ with
        | error err =>
          refine ⟨by simp [execOciStarter, configJSON_eq, h1, h2, h3, h4, henv2], [], ?_, ?_⟩
          · simp [execOciStarter, configJSON_eq, h1, h2, h3, h4, henv, henv2]
          · simp
        | ok configData =>
          cases h5 : d.PipeCommand (d.LIBEXECDIR ++ "/singularity/bin/starter") ["OCI"]
              ["SRUNTIME=oci", "SINGULARITY_MESSAGELEVEL=0"] configData with
          | error err =>
            refine ⟨by simp [execOciStarter, configJSON_eq, h1, h2, h3, h4, h5, henv, henv2],
              [.pipeCommand (d.LIBEXECDIR ++ "/singularity/bin/starter") ["OCI"]
                ["SRUNTIME=oci", "SINGULARITY_MESSAGELEVEL=0"] configData], ?_, ?_⟩
            · simp [execOciStarter, configJSON_eq, h1, h2, h3, h4, h5, henv, henv2]
            · simp
          | ok u =>
            refine ⟨?_,
              [.pipeCommand (d.LIBEXECDIR ++ "/singularity/bin/starter") ["OCI"]
                ["SRUNTIME=oci", "SINGULARITY_MESSAGELEVEL=0"] configData,
               .run (d.LIBEXECDIR ++ "/singularity/bin/starter") ["OCI"]
                ["SRUNTIME=oci", "SINGULARITY_MESSAGELEVEL=0"] configData], ?_, ?_⟩
            · cases h6 : d.Run (d.LIBEXECDIR ++ "/singularity/bin/starter") ["OCI"]
                ["SRUNTIME=oci", "SINGULARITY_MESSAGELEVEL=0"] configData <;>
                simp [execOciStarter, configJSON_eq, h1, h2, h3, h4, h5, h6, henv, henv2]
            · cases h6 : d.Run (d.LIBEXECDIR ++ "/singularity/bin/starter") ["OCI"]
                ["SRUNTIME=oci", "SINGULARITY_MESSAGELEVEL=0"] configData <;>
                simp [execOciStarter, configJSON_eq, h1, h2, h3, h4, h5, h6, henv, henv2]
            · simp

/-- C7: `execOciStarter` loads `config.json` of its bundle, which is `/tmp`.
When the file cannot be opened the function returns the error `failed to open
/tmp/config.json: ...`, when it opens but cannot be read the error `failed to
read /tmp/config.json: ...`, when its bytes do not parse the error `failed to
parse /tmp/config.json: ...`; in each case the calls made stop at the failing
step, so the envelope is not serialized and no starter command is built or
run.  Conversely every call that serializes the envelope, builds the starter
command or runs it comes after a successful open, read and parse, and carries
the parsed specification. -/
theorem execOciStarter_config_failure {σ : Type} (d : Deps σ) (fs : FileSystem)
    (env0 : Environ) :
    (∀ err, fs.openRead "/tmp/config.json" = .error err →
      execOciStarter d fs env0 =
        ⟨.error ("failed to open /tmp/config.json: " ++ err),
          [.clearenv, .openConfig "/tmp/config.json"], []⟩) ∧
    (∀ err, fs.openRead "/tmp/config.json" = .ok () →
      fs.readAll "/tmp/config.json" = .error err →
      execOciStarter d fs env0 =
        ⟨.error ("failed to read /tmp/config.json: " ++ err),
          [.clearenv, .openConfig "/tmp/config.json", .readAll "/tmp/config.json"], []⟩) ∧
    (∀ data err, fs.openRead "/tmp/config.json" = .ok () →
      fs.readAll "/tmp/config.json" = .ok data →
      d.Unmarshal data d.NewSpec = .error err →
      execOciStarter d fs env0 =
        ⟨.error ("failed to parse /tmp/config.json: " ++ err),
          [.clearenv, .openConfig "/tmp/config.json", .readAll "/tmp/config.json",
            .close "/tmp/config.json", .unmarshal data], []⟩) ∧
    (∀ e ∈ (execOciStarter d fs env0).trace, e.isHandoff = true →
      ∃ data spec, fs.openRead "/tmp/config.json" = .ok () ∧
        fs.readAll "/tmp/config.json" = .ok data ∧
        d.Unmarshal data d.NewSpec = .ok spec ∧
        (e = .marshal ⟨"test", "oci", ⟨"/tmp", spec⟩⟩ ∨
          ∃ configData, d.Marshal ⟨"test", "oci", ⟨"/tmp", spec⟩⟩ = .ok configData ∧
            (e = .pipeCommand (d.LIBEXECDIR ++ "/singularity/bin/starter") ["OCI"]
                ["SRUNTIME=oci", "SINGULARITY_MESSAGELEVEL=0"] configData ∨
              e = .run (d.LIBEXECDIR ++ "/singularity/bin/starter") ["OCI"]
                ["SRUNTIME=oci", "SINGULARITY_MESSAGELEVEL=0"] configData))) := by
  refine ⟨?_, ?_, ?_, ?_⟩
  · intro err h
    rcases execOciStarter_cases d fs env0 with
      ⟨e, h1, hr⟩ | ⟨e, h1, _, _⟩ | ⟨_, e, h1, _, _, _⟩ | ⟨_, _, h1, _, _, _⟩
    · rw [h] at h1; cases h1; exact hr
    all_goals rw [h] at h1; cases h1
  · intro err h h'
    rcases execOciStarter_cases d fs env0 with
      ⟨e, h1, _⟩ | ⟨e, _, h2, hr⟩ | ⟨_, e, _, h2, _, _⟩ | ⟨_, _, _, h2, _, _⟩
    · rw [h] at h1; cases h1
    · rw [h'] at h2; cases h2; exact hr
    all_goals rw [h'] at h2; cases h2
  · intro data err h h' h''
    rcases execOciStarter_cases d fs env0 with
      ⟨e, h1, _⟩ | ⟨e, _, h2, _⟩ | ⟨dt, e, _, h2, h3, hr⟩ | ⟨dt, _, _, h2, h3, _⟩
    · rw [h] at h1; cases h1
    · rw [h'] at h2; cases h2
    · rw [h'] at h2; cases h2; rw [h''] at h3; cases h3; exact hr
    · rw [h'] at h2; cases h2; rw [h''] at h3; cases h3
  · intro e he hh
    rcases execOciStarter_cases d fs env0 with
      ⟨_, _, hr⟩ | ⟨_, _, _, hr⟩ | ⟨_, _, _, _, _, hr⟩ | ⟨data, spec, h1, h2, h3, _, rest, hr, hrest⟩
    · rw [hr] at he
      simp only [List.mem_cons, List.mem_singleton, List.not_mem_nil, or_false] at he
      rcases he with h | h <;> subst h <;> simp [Event.isHandoff] at hh
    · rw [hr] at he
      simp only [List.mem_cons, List.mem_singleton, List.not_mem_nil, or_false] at he
      rcases he with h | h | h <;> subst h <;> simp [Event.isHandoff] at hh
    · rw [hr] at he
      simp only [List.mem_cons, List.mem_singleton, List.not_mem_nil, or_false] at he
      rcases he with h | h | h | h | h <;> subst h <;> simp [Event.isHandoff] at hh
    · refine ⟨data, spec, h1, h2, h3, ?_⟩
      rw [hr] at he
      simp only [List.mem_append, List.mem_cons, List.mem_singleton, List.not_mem_nil,
        or_false] at he
      rcases he with (h | h | h | h | h | h | h | h) | h
      · subst h; simp [Event.isHandoff] at hh
      · subst h; simp [Event.isHandoff] at hh
      · subst h; simp [Event.isHandoff] at hh
      · subst h; simp [Event.isHandoff] at hh
      · subst h; simp [Event.isHandoff] at hh
      · subst h; simp [Event.isHandoff] at hh
      · subst h; simp [Event.isHandoff] at hh
      · exact Or.inl h
      · exact Or.inr (hrest e h)

theorem execOciStarter_config_failure_witness :
    truncatedFS.openRead "/tmp/config.json" = .ok () ∧
    truncatedFS.readAll "/tmp/config.json" = .ok [123, 34, 111, 99, 105] ∧
    starterDeps.Unmarshal [123, 34, 111, 99, 105] starterDeps.NewSpec =
      .error "unexpected end of JSON input" ∧
    execOciStarter starterDeps truncatedFS [("HOME", "/root")] =
      ⟨.error ("failed to parse /tmp/config.json: " ++ "unexpected end of JSON input"),
        [.clearenv, .openConfig "/tmp/config.json", .readAll "/tmp/config.json",
          .close "/tmp/config.json", .unmarshal [123, 34, 111, 99, 105]], []⟩ :=
  ⟨rfl, rfl, rfl,
    (execOciStarter_config_failure starterDeps truncatedFS [("HOME", "/root")]).2.2.1
      [123, 34, 111, 99, 105] "unexpected end of JSON input" rfl rfl rfl⟩

/-- C8: the environment handed to the starter does not depend on the
environment of the caller: for any two initial environments the two runs of
`execOciStarter` are equal (same result, same calls with the same arguments,
same environment left), and every call that builds or runs the starter command
passes exactly `SRUNTIME=oci` and `SINGULARITY_MESSAGELEVEL=0`, while the
process environment at that point holds these two variables and no other. -/
theorem execOciStarter_environment {σ : Type} (d : Deps σ) (fs : FileSystem)
    (env1 env2 : Environ) :
    execOciStarter d fs env1 = execOciStarter d fs env2 ∧
    (∀ command args env data,
      (.pipeCommand command args env data ∈ (execOciStarter d fs env1).trace ∨
        .run command args env data ∈ (execOciStarter d fs env1).trace) →
      env = ["SRUNTIME=oci", "SINGULARITY_MESSAGELEVEL=0"] ∧
      (execOciStarter d fs env1).env =
        [("SRUNTIME", "oci"), ("SINGULARITY_MESSAGELEVEL", "0")]) := by
  refine ⟨rfl, ?_⟩
  intro command args env data hmem
  have hmem' : ∃ e, e ∈ (execOciStarter d fs env1).trace ∧
      (e = .pipeCommand command args env data ∨ e = .run command args env data) := by
    rcases hmem with h | h
    · exact ⟨_, h, Or.inl rfl⟩
    · exact ⟨_, h, Or.inr rfl⟩
  obtain ⟨e, he, hform⟩ := hmem'
  rcases execOciStarter_cases d fs env1 with
    ⟨_, _, hr⟩ | ⟨_, _, _, hr⟩ | ⟨_, _, _, _, _, hr⟩ | ⟨data, spec, _, _, _, henv, rest, hr, hrest⟩
  · rw [hr] at he
    simp only [List.mem_cons, List.mem_singleton, List.not_mem_nil, or_false] at he
    rcases he with h | h <;> subst h <;> rcases hform with h | h <;> cases h
  · rw [hr] at he
    simp only [List.mem_cons, List.mem_singleton, List.not_mem_nil, or_false] at he
    rcases he with h | h | h <;> subst h <;> rcases hform with h | h <;> cases h
  · rw [hr] at he
    simp only [List.mem_cons, List.mem_singleton, List.not_mem_nil, or_false] at he
    rcases he with h | h | h | h | h <;> subst h <;> rcases hform with h | h <;> cases h
  · refine ⟨?_, henv⟩
    rw [hr] at he
    simp only [List.mem_append, List.mem_cons, List.mem_singleton, List.not_mem_nil,
      or_false] at he
    rcases he with (h | h | h | h | h | h | h | h) | h
    any_goals (subst h; rcases hform with h | h <;> cases h)
    obtain ⟨configData, _, h' | h'⟩ := hrest e h
    · subst h'
      rcases hform with h | h
      · cases h; rfl
      · cases h
    · subst h'
      rcases hform with h | h
      · cases h
      · cases h; rfl

theorem execOciStarter_environment_witness :
    Event.run "/usr/local/libexec/singularity/bin/starter" ["OCI"]
        ["SRUNTIME=oci", "SINGULARITY_MESSAGELEVEL=0"]
        [116, 101, 115, 116, 0, 111, 99, 105, 0, 47, 116, 109, 112, 0, 123, 125, 0]
      ∈ (execOciStarter starterDeps bundleFS
          [("HOME", "/root"), ("SRUNTIME", "docker"), ("LD_PRELOAD", "/x.so")]).trace ∧
    (execOciStarter starterDeps bundleFS
        [("HOME", "/root"), ("SRUNTIME", "docker"), ("LD_PRELOAD", "/x.so")]).env =
      [("SRUNTIME", "oci"), ("SINGULARITY_MESSAGELEVEL", "0")] ∧
    execOciStarter starterDeps bundleFS
        [("HOME", "/root"), ("SRUNTIME", "docker"), ("LD_PRELOAD", "/x.so")] =
      execOciStarter starterDeps bundleFS [] :=
  ⟨by decide,
    ((execOciStarter_environment starterDeps bundleFS
      [("HOME", "/root"), ("SRUNTIME", "docker"), ("LD_PRELOAD", "/x.so")] []).2
      "/usr/local/libexec/singularity/bin/starter" ["OCI"]
      ["SRUNTIME=oci", "SINGULARITY_MESSAGELEVEL=0"]
      [116, 101, 115, 116, 0, 111, 99, 105, 0, 47, 116, 109, 112, 0, 123, 125, 0]
      (Or.inr (by decide))).2,
    (execOciStarter_environment starterDeps bundleFS
      [("HOME", "/root"), ("SRUNTIME", "docker"), ("LD_PRELOAD", "/x.so")] []).1⟩

/-- C9, evaluated on the code: the container name of the caller does not reach
the envelope.  The three commands run the same body whatever `--container`
was given and whatever name `oci start` was called with; with the name `mybox`
and a bundle whose `config.json` is `{}`, the envelope that is serialized has
`EngineName` `oci` and the parsed specification, and its `ContainerID` is the
constant `test`, not `mybox`. -/
theorem ociCommands_container_id {σ : Type} (d : Deps σ) (fs : FileSystem) (env0 : Environ)
    (n1 n2 a1 a2 : String) :
    OciCreateCmd d n1 fs env0 [] = OciCreateCmd d n2 fs env0 [] ∧
    OciRunCmd d n1 fs env0 [] = OciRunCmd d n2 fs env0 [] ∧
    OciStartCmd d n1 fs env0 [a1] = OciStartCmd d n2 fs env0 [a2] ∧
    (OciCreateCmd starterDeps "mybox" bundleFS [] []).trace.filter Event.isHandoff =
      (execOciStarter starterDeps bundleFS []).trace.filter Event.isHandoff ∧
    (OciStartCmd starterDeps "mybox" bundleFS [] ["mybox"]).trace.filter Event.isHandoff =
      (execOciStarter starterDeps bundleFS []).trace.filter Event.isHandoff ∧
    (execOciStarter starterDeps bundleFS []).trace.filter Event.isHandoff =
      [.marshal ⟨"test", "oci", ⟨"/tmp", [123, 125]⟩⟩,
       .pipeCommand "/usr/local/libexec/singularity/bin/starter" ["OCI"]
        ["SRUNTIME=oci", "SINGULARITY_MESSAGELEVEL=0"]
        [116, 101, 115, 116, 0, 111, 99, 105, 0, 47, 116, 109, 112, 0, 123, 125, 0],
       .run "/usr/local/libexec/singularity/bin/starter" ["OCI"]
        ["SRUNTIME=oci", "SINGULARITY_MESSAGELEVEL=0"]
        [116, 101, 115, 116, 0, 111, 99, 105, 0, 47, 116, 109, 112, 0, 123, 125, 0]] :=
  ⟨rfl, rfl, rfl, by decide, by decide, by decide⟩

/-- C10, evaluated on the code: the error `execOciStarter` returns is dropped
by the `Run` function of each command.  With no `/tmp/config.json`, with a
`config.json` cut short, and with a starter that exits with status one,
`execOciStarter` returns an error, yet `oci create`, `oci run` and `oci start`
return as on success: nothing is reported and the outcome is not a failure. -/
theorem ociCommands_drop_error :
    (execOciStarter starterDeps Pull.emptyFS []).ret =
      .error "failed to open /tmp/config.json: open /tmp/config.json: no such file or directory" ∧
    (OciCreateCmd starterDeps "" Pull.emptyFS [] []).outcome = .returned ∧
    (OciCreateCmd starterDeps "" Pull.emptyFS [] []).outcome.isFailure = false ∧
    (execOciStarter starterDeps truncatedFS []).ret =
      .error "failed to parse /tmp/config.json: unexpected end of JSON input" ∧
    (OciRunCmd starterDeps "" truncatedFS [] []).outcome = .returned ∧
    (OciRunCmd starterDeps "" truncatedFS [] []).outcome.isFailure = false ∧
    (execOciStarter failingStarterDeps bundleFS []).ret = .error "exit status 1" ∧
    (OciStartCmd failingStarterDeps "" bundleFS [] ["c1"]).outcome = .returned ∧
    (OciStartCmd failingStarterDeps "" bundleFS [] ["c1"]).outcome.isFailure = false := by
  decide

end Singularity.Oci
